import Mathlib

/-!
# pyFormex `drawgl` module: emitted OpenGL call traces

A shallow embedding of `src/pyformex/lib/drawglmodule.c`.  The OpenGL backend
is modelled by the sequence of calls it receives; a C `float *` is a position
inside a caller-owned buffer, and every read outside the buffer makes the
embedded function return `none`.  A C `int` is an integer of 32 bits: an `int`
product or sum that leaves its range is undefined behaviour and also makes the
embedded function return `none`, and the conversion of an array dimension to
`int` keeps its low 32 bits.  Argument parsing and reference counting are
outside the embedding, which starts from the converted arrays.
-/

namespace DrawGL

/-! ## Data model -/

/-- A C `float`, identified by its IEEE-754 binary32 bit pattern.  The module
never computes with floats: it copies them to the backend and compares `alpha`
with the constant `1.0`. -/
structure F32 where
  bits : Nat
deriving DecidableEq, Repr, Inhabited

/-- The bit pattern of the float `1.0`. -/
def F32.one : F32 := ⟨0x3F800000⟩

/-- The C test `a == 1.0`: the float is promoted to double without rounding, so
the test holds exactly for the one bit pattern of `1.0` (NaN compares unequal). -/
def F32.eqOne (a : F32) : Bool := a.bits == 0x3F800000

/-- Three consecutive floats, as read by the `3fv` backend calls. -/
abbrev Vec3 := F32 × F32 × F32

/-- The primitive kinds passed to `glBegin` by this module. -/
inductive GLMode where
  | GL_LINES
  | GL_TRIANGLES
deriving DecidableEq, Repr

/-- One call received by the graphics backend: `glBegin(mode)`, `glEnd()`,
`glVertex3fv`, `glNormal3fv` and `glColor3fv` with the three floats read, and
`glColor4f` with its four arguments. -/
inductive GLCall where
  | beginPrim (mode : GLMode)
  | endPrim
  | vertex (v : Vec3)
  | normal (v : Vec3)
  | color3 (v : Vec3)
  | color4 (r g b a : F32)
deriving DecidableEq, Repr

open GLMode GLCall

/-- The calls emitted so far, oldest first. -/
abbrev Trace := List GLCall

/-- A numpy array after `PyArray_FROM_OTF`: its shape and its contiguous
row-major data. -/
structure PyArray (α : Type) where
  dims : List Nat
  data : List α
deriving DecidableEq, Repr

/-- A `float *`: `NULL`, or an offset (in floats) into a buffer. -/
inductive FloatPtr where
  | null
  | mk (buf : List F32) (off : Int)
deriving DecidableEq, Repr

/-- Pointer arithmetic `p + k`. -/
def FloatPtr.add : FloatPtr → Int → FloatPtr
  | .null, _ => .null
  | .mk buf off, k => .mk buf (off + k)

/-- The read `p[j]`; `none` when it falls outside the buffer. -/
def FloatPtr.get : FloatPtr → Nat → Option F32
  | .null, _ => none
  | .mk buf off, j => if 0 ≤ off + j then buf[(off + j).toNat]? else none

/-- The three floats `p[0], p[1], p[2]` a `3fv` call reads. -/
def FloatPtr.read3 (p : FloatPtr) : Option Vec3 := do
  let a ← p.get 0
  let b ← p.get 1
  let c ← p.get 2
  pure (a, b, c)

/-- `PyArray_DATA` of a possibly failed conversion (`NULL` stays `NULL`). -/
def dataPtr : Option (PyArray F32) → FloatPtr
  | none => .null
  | some a => .mk a.data 0

/-- `PyArray_NDIM` of the optional color argument, `0` when the conversion
returned `NULL` (the C initialiser `nd=0`). -/
def ndimOr0 : Option (PyArray F32) → Nat
  | none => 0
  | some a => a.dims.length

/-! ## The C type `int` -/

/-- The largest `int`. -/
def INT_MAX : Int := 2147483647

/-- The smallest `int`. -/
def INT_MIN : Int := -2147483648

/-- The value of an `int` expression whose mathematical value is `z`: `none`
(undefined behaviour) when `z` is outside the range of `int`. -/
def checkInt (z : Int) : Option Int :=
  if INT_MIN ≤ z ∧ z ≤ INT_MAX then some z else none

/-- The `int` product `a * b`. -/
def int_mul (a b : Int) : Option Int := checkInt (a * b)

/-- The `int` sum `a + b`. -/
def int_add (a b : Int) : Option Int := checkInt (a + b)

/-- The conversion of an array dimension (`npy_intp`) to `int`, as in
`nels = PyArray_DIMS(arr1)[0]`: the low 32 bits, read in two's complement. -/
def toInt (d : Nat) : Int :=
  if d % 4294967296 < 2147483648 then ((d % 4294967296 : Nat) : Int)
  else ((d % 4294967296 : Nat) : Int) - 4294967296

/-! ## Backend calls -/

/-- `glVertex3fv(p)`. -/
def glVertex3fv (p : FloatPtr) : Option Trace := do
  let v ← p.read3
  pure [vertex v]

/-- `glNormal3fv(p)`. -/
def glNormal3fv (p : FloatPtr) : Option Trace := do
  let v ← p.read3
  pure [normal v]

/-- `glColor3fv(p)`. -/
def glColor3fv (p : FloatPtr) : Option Trace := do
  let v ← p.read3
  pure [color3 v]

/-- Sequencing of two statements: the calls of the first, then of the second. -/
def seq2 (a b : Option Trace) : Option Trace := do
  let s ← a
  let t ← b
  pure (s ++ t)

/-- The read `e[k]` of an `int` array at an `int` index; `none` when it falls
outside the array. -/
def getInt (e : List Int) (k : Int) : Option Int :=
  if 0 ≤ k then e[k.toNat]? else none

/-- The pointer expression `p + k*i`, where `k*i` is an `int` product. -/
def FloatPtr.addMul (p : FloatPtr) (k i : Int) : Option FloatPtr :=
  (int_mul k i).map p.add

/-- The C loop `for (i = start; i < bound; i += step) body(i)` on an `int`
counter, where the first argument bounds the number of iterations. -/
def forLoop (bound step : Int) (body : Int → Option Trace) : Nat → Int → Option Trace
  | 0, _ => some []
  | fuel + 1, i =>
    if i < bound then
      seq2 (body i) ((int_add i step).bind fun next => forLoop bound step body fuel next)
    else some []

/-- The loop `for (i = 0; i < bound; i += step) body(i)` with `step ≥ 1`: at
most `bound` iterations run. -/
def cFor (bound step : Int) (body : Int → Option Trace) : Option Trace :=
  forLoop bound step body bound.toNat 0

/-! ## The functions of the module -/

/-- The function `gl_color(color, alpha)`. -/
def gl_color (color : FloatPtr) (alpha : F32) : Option Trace :=
  if alpha.eqOne then
    glColor3fv color
  else do
    let r ← color.get 0
    let g ← color.get 1
    let b ← color.get 2
    pure [color4 r g b alpha]

/-- The function `draw_lines`, from `glBegin(GL_LINES)` to `glEnd()`.  `arr1` is
the converted coordinate array, `arr2` the converted color array (`none` when
the conversion returned `NULL`).  `nels`, the loop bounds and `2*i` are `int`
values; `x+2*i+3` is the pointer `(x + 2*i) + 3`. -/
def draw_lines (arr1 : PyArray F32) (arr2 : Option (PyArray F32)) : Option Trace := do
  let x := FloatPtr.mk arr1.data 0
  let nels := toInt (← arr1.dims[0]?)
  let c := dataPtr arr2
  let nd := ndimOr0 arr2
  let body ←
    if nd = 0 then
      (int_mul (2 * 3) nels).bind fun bound =>
        cFor bound 3 fun i =>
          glVertex3fv (x.add i)
    else if nd = 2 then
      (int_mul 3 nels).bind fun bound =>
        cFor bound 3 fun i =>
          seq2 (glColor3fv (c.add i))
            (seq2 ((x.addMul 2 i).bind fun p => glVertex3fv p)
              ((x.addMul 2 i).bind fun p => glVertex3fv (p.add 3)))
    else if nd = 3 then
      (int_mul (2 * 3) nels).bind fun bound =>
        cFor bound 3 fun i =>
          seq2 (glColor3fv (c.add i)) (glVertex3fv (x.add i))
    else some []
  pure (beginPrim GL_LINES :: body ++ [endPrim])

/-- The function `draw_triangles`, from `glBegin(GL_TRIANGLES)` to `glEnd()`.
`nels`, the loop bound `9*nels` and the products `3*i`, `9*i` are `int` values;
`x+9*i+j` is the pointer `(x + 9*i) + j`. -/
def draw_triangles (arr1 : PyArray F32) (arr2 arr3 : Option (PyArray F32))
    (alpha : F32) : Option Trace := do
  let x := FloatPtr.mk arr1.data 0
  let nels := toInt (← arr1.dims[0]?)
  let n := dataPtr arr2
  let c := dataPtr arr3
  let nd := ndimOr0 arr3
  let body ←
    if nd = 0 then
      if n = FloatPtr.null then
        (int_mul 9 nels).bind fun bound =>
          cFor bound 3 fun i =>
            glVertex3fv (x.add i)
      else
        cFor nels 1 fun i =>
          seq2 ((n.addMul 3 i).bind fun p => glNormal3fv p)
            (cFor 9 3 fun j => (x.addMul 9 i).bind fun p => glVertex3fv (p.add j))
    else if nd = 2 then
      if n = FloatPtr.null then
        cFor nels 1 fun i =>
          seq2 ((c.addMul 3 i).bind fun p => gl_color p alpha)
            (cFor 9 3 fun j => (x.addMul 9 i).bind fun p => glVertex3fv (p.add j))
      else
        cFor nels 1 fun i =>
          seq2 ((c.addMul 3 i).bind fun p => gl_color p alpha)
            (seq2 ((n.addMul 3 i).bind fun p => glNormal3fv p)
              (cFor 9 3 fun j => (x.addMul 9 i).bind fun p => glVertex3fv (p.add j)))
    else if nd = 3 then
      if n = FloatPtr.null then
        (int_mul 9 nels).bind fun bound =>
          cFor bound 3 fun i =>
            seq2 (glColor3fv (c.add i)) (glVertex3fv (x.add i))
      else
        cFor nels 1 fun i =>
          seq2 ((n.addMul 3 i).bind fun p => glNormal3fv p)
            (cFor 9 3 fun j =>
              seq2 ((c.addMul 9 i).bind fun p => glColor3fv (p.add j))
                ((x.addMul 9 i).bind fun p => glVertex3fv (p.add j)))
    else some []
  pure (beginPrim GL_TRIANGLES :: body ++ [endPrim])

/-- The function `draw_triangle_elements`, from `glBegin(GL_TRIANGLES)` to
`glEnd()`.  `arr2` is the converted `int` element array; `arr3` and `arr4` are
the converted normals and colors, which the drawing loop never reads.  `npts`,
`ntri`, the bound `3*ntri`, the index `i+j` and the product `3*e[i+j]` are `int`
values. -/
def draw_triangle_elements (arr1 : PyArray F32) (arr2 : PyArray Int)
    (arr3 arr4 : Option (PyArray F32)) : Option Trace := do
  let x := FloatPtr.mk arr1.data 0
  let e := arr2.data
  let _n := dataPtr arr3
  let _c := dataPtr arr4
  let _npts := toInt (← arr1.dims[0]?)
  let ntri := toInt (← arr2.dims[0]?)
  let body ←
    (int_mul 3 ntri).bind fun bound =>
      cFor bound 3 fun i =>
        cFor 3 3 fun j =>
          (int_add i j).bind fun k =>
            (getInt e k).bind fun idx =>
              (x.addMul 3 idx).bind fun p => glVertex3fv p
  pure (beginPrim GL_TRIANGLES :: body ++ [endPrim])

/-! ## Specification vocabulary -/

/-- The sequence of 3D points stored in a buffer, in buffer order. -/
def points : List F32 → List Vec3
  | a :: b :: c :: rest => (a, b, c) :: points rest
  | _ => []

/-- The point number `p` of a buffer. -/
def pointAt (data : List F32) (p : Nat) : Vec3 := (points data).getD p default

/-- The array has the given shape and holds exactly that many elements. -/
def HasShape {α : Type} (a : PyArray α) (shape : List Nat) : Prop :=
  a.dims = shape ∧ a.data.length = shape.prod

instance {α : Type} (a : PyArray α) (shape : List Nat) : Decidable (HasShape a shape) :=
  inferInstanceAs (Decidable (_ ∧ _))

/-- The entry `a[k]` of an array of shape `[N,3]`. -/
def PyArray.row (a : PyArray F32) (k : Nat) : Vec3 := pointAt a.data k

/-- The entry `a[k][v]` of an array of shape `[N,V,3]`. -/
def PyArray.elem (a : PyArray F32) (k v : Nat) : Vec3 :=
  pointAt a.data (a.dims.getD 1 0 * k + v)

/-- The color call the Color Resolver is specified to make for `rgb` and
`alpha`: three components when `alpha` is `1.0`, four otherwise. -/
def colorCall (rgb : Vec3) (alpha : F32) : GLCall :=
  if alpha = F32.one then color3 rgb else color4 rgb.1 rgb.2.1 rgb.2.2 alpha

/-- The call is a vertex call. -/
def GLCall.isVertex : GLCall → Bool
  | vertex _ => true
  | _ => false

/-- The call is a normal call. -/
def GLCall.isNormal : GLCall → Bool
  | normal _ => true
  | _ => false

/-- The call is a color call, of three or four components. -/
def GLCall.isColor : GLCall → Bool
  | color3 _ => true
  | color4 _ _ _ _ => true
  | _ => false

/-- Number of vertex calls in a trace. -/
def countVertex (t : Trace) : Nat := t.countP GLCall.isVertex

/-- Number of normal calls in a trace. -/
def countNormal (t : Trace) : Nat := t.countP GLCall.isNormal

/-- Number of color calls in a trace. -/
def countColor (t : Trace) : Nat := t.countP GLCall.isColor

/-! ## Example buffers -/

/-- The float `0.0`. -/
def F32.zero : F32 := ⟨0⟩

/-- The float `0.5`. -/
def F32.half : F32 := ⟨0x3F000000⟩

/-- The float nearest to `0.999`. -/
def F32.near1 : F32 := ⟨0x3F7FBE77⟩

/-- The vertex buffer `[[0,0,0],[1,0,0],[0,1,0],[1,1,0]]`. -/
def exVertices : PyArray F32 :=
  ⟨[4, 3], [.zero, .zero, .zero, .one, .zero, .zero, .zero, .one, .zero, .one, .one, .zero]⟩

/-- The index buffer `[[0,1,2],[1,3,2]]`. -/
def exIndices : PyArray Int := ⟨[2, 3], [0, 1, 2, 1, 3, 2]⟩

/-- One triangle `(0,0,0),(1,0,0),(0,1,0)`, shape `[1,3,3]`. -/
def exTriangle : PyArray F32 :=
  ⟨[1, 3, 3], [.zero, .zero, .zero, .one, .zero, .zero, .zero, .one, .zero]⟩

/-- One normal `(0,0,1)`, shape `[1,3]`. -/
def exNormals : PyArray F32 := ⟨[1, 3], [.zero, .zero, .one]⟩

/-- One color `(1,0,0)` per primitive, shape `[1,3]`. -/
def exFaceColors : PyArray F32 := ⟨[1, 3], [.one, .zero, .zero]⟩

/-- Three vertex colors `(1,0,0),(0,1,0),(0,0,1)`, shape `[1,3,3]`. -/
def exVertexColors : PyArray F32 :=
  ⟨[1, 3, 3], [.one, .zero, .zero, .zero, .one, .zero, .zero, .zero, .one]⟩

/-- One line segment `(0,0,0),(1,0,0)`, shape `[1,2,3]`. -/
def exLine : PyArray F32 := ⟨[1, 2, 3], [.zero, .zero, .zero, .one, .zero, .zero]⟩

/-- Two endpoint colors `(1,0,0),(0,1,0)`, shape `[1,2,3]`. -/
def exEndColors : PyArray F32 := ⟨[1, 2, 3], [.one, .zero, .zero, .zero, .one, .zero]⟩

/-! ## Vocabulary for batches and shapes -/

/-- Every call of a trace that is produced satisfies `P`. -/
def AllCalls (P : GLCall → Prop) (o : Option Trace) : Prop :=
  ∀ t, o = some t → ∀ call ∈ t, P call

/-- The call is a `glBegin`. -/
def GLCall.isBegin : GLCall → Bool
  | beginPrim _ => true
  | _ => false

/-- The call is a `glEnd`. -/
def GLCall.isEnd : GLCall → Bool
  | endPrim => true
  | _ => false

/-- Number of begin calls in a trace. -/
def countBegin (t : Trace) : Nat := t.countP GLCall.isBegin

/-- Number of end calls in a trace. -/
def countEnd (t : Trace) : Nat := t.countP GLCall.isEnd

/-- The trace is one batch of the given kind: it starts with the only begin
call, which has that kind, and stops with the only end call. -/
def OneBatch (mode : GLMode) (t : Trace) : Prop :=
  t.head? = some (beginPrim mode) ∧ t.getLast? = some endPrim ∧
    countBegin t = 1 ∧ countEnd t = 1

/-- The documented shapes of the optional normals argument for `N` triangles:
absent, or shape `[N,3]`. -/
def NormalsShape : Option (PyArray F32) → Nat → Prop
  | none, _ => True
  | some a, N => HasShape a [N, 3]

/-- The documented shapes of the optional color argument for `N` primitives of
`V` vertices: absent (no array, or rank 0), per-primitive `[N,3]`, or per-vertex
`[N,V,3]`. -/
def ColorsShape : Option (PyArray F32) → Nat → Nat → Prop
  | none, _, _ => True
  | some a, N, V => a.dims = [] ∨ HasShape a [N, 3] ∨ HasShape a [N, V, 3]

/-- A uniform color `(1,0,0)`, rank 1, shape `[3]`. -/
def exUniformColor : PyArray F32 := ⟨[3], [.one, .zero, .zero]⟩

/-- An empty coordinate array for lines, shape `[0,2,3]`. -/
def exNoLines : PyArray F32 := ⟨[0, 2, 3], []⟩

/-- An empty coordinate array for triangles, shape `[0,3,3]`. -/
def exNoTriangles : PyArray F32 := ⟨[0, 3, 3], []⟩

/-- An empty index array, shape `[0,3]`. -/
def exNoIndices : PyArray Int := ⟨[0, 3], []⟩

/-- The array of the given shape filled with the float `0.0`. -/
def zeros (shape : List Nat) : PyArray F32 := ⟨shape, List.replicate shape.prod F32.zero⟩

/-! ## Buffers and pointers -/

theorem points_getElem? (data : List F32) (p : Nat) :
    (points data)[p]? =
      (data[3 * p]?).bind fun a => (data[3 * p + 1]?).bind fun b =>
        (data[3 * p + 2]?).bind fun c => some (a, b, c) := by
  induction p generalizing data with
  | zero =>
    match data with
    | [] => simp [points]
    | [_] => simp [points]
    | [_, _] => simp [points]
    | a :: b :: c :: rest => simp [points]
  | succ p ih =>
    match data with
    | [] => simp [points]
    | [_] => simp [points]
    | [_, _] => simp [points]
    | a :: b :: c :: rest =>
      have h1 : 3 * (p + 1) = 3 * p + 1 + 1 + 1 := by ring
      have h2 : 3 * (p + 1) + 1 = (3 * p + 1) + 1 + 1 + 1 := by ring
      have h3 : 3 * (p + 1) + 2 = (3 * p + 2) + 1 + 1 + 1 := by ring
      rw [h3, h2, h1]
      simp only [points, List.getElem?_cons_succ]
      exact ih rest

theorem length_points (data : List F32) :
    3 * (points data).length + data.length % 3 = data.length := by
  induction data using points.induct with
  | case1 a b c rest ih => simp only [points, List.length_cons]; omega
  | case2 data h =>
    match data with
    | [] => simp [points]
    | [_] => simp [points]
    | [_, _] => simp [points]
    | a :: b :: c :: rest => exact absurd rfl (h a b c rest)

theorem points_getElem?_of_le (data : List F32) (p : Nat) (hp : 3 * p + 3 ≤ data.length) :
    (points data)[p]? = some (pointAt data p) := by
  have hl := length_points data
  have hlt : p < (points data).length := by omega
  simp [pointAt, List.getD, List.getElem?_eq_getElem hlt]

theorem read3_mk (data : List F32) (z : Int) (p : Nat) (hz : z = 3 * (p : Int)) :
    (FloatPtr.mk data z).read3 = (points data)[p]? := by
  subst hz
  have e0 : (3 * (p : Int) + ((0 : Nat) : Int)).toNat = 3 * p := by omega
  have e1 : (3 * (p : Int) + ((1 : Nat) : Int)).toNat = 3 * p + 1 := by omega
  have e2 : (3 * (p : Int) + ((2 : Nat) : Int)).toNat = 3 * p + 2 := by omega
  have g0 : (0 : Int) ≤ 3 * (p : Int) + ((0 : Nat) : Int) := by omega
  have g1 : (0 : Int) ≤ 3 * (p : Int) + ((1 : Nat) : Int) := by omega
  have g2 : (0 : Int) ≤ 3 * (p : Int) + ((2 : Nat) : Int) := by omega
  rw [points_getElem?]
  simp only [FloatPtr.read3, FloatPtr.get, g0, g1, g2, e0, e1, e2, if_true]
  rfl

theorem read3_add (data : List F32) (z : Int) (p : Nat) (hz : z = 3 * (p : Int))
    (hp : 3 * p + 3 ≤ data.length) :
    ((FloatPtr.mk data 0).add z).read3 = some (pointAt data p) := by
  rw [FloatPtr.add, read3_mk data (0 + z) p (by omega), points_getElem?_of_le data p hp]

theorem glVertex3fv_add (data : List F32) (z : Int) (p : Nat) (hz : z = 3 * (p : Int))
    (hp : 3 * p + 3 ≤ data.length) :
    glVertex3fv ((FloatPtr.mk data 0).add z) = some [vertex (pointAt data p)] := by
  simp [glVertex3fv, read3_add data z p hz hp]

theorem glNormal3fv_add (data : List F32) (z : Int) (p : Nat) (hz : z = 3 * (p : Int))
    (hp : 3 * p + 3 ≤ data.length) :
    glNormal3fv ((FloatPtr.mk data 0).add z) = some [normal (pointAt data p)] := by
  simp [glNormal3fv, read3_add data z p hz hp]

theorem glColor3fv_add (data : List F32) (z : Int) (p : Nat) (hz : z = 3 * (p : Int))
    (hp : 3 * p + 3 ≤ data.length) :
    glColor3fv ((FloatPtr.mk data 0).add z) = some [color3 (pointAt data p)] := by
  simp [glColor3fv, read3_add data z p hz hp]

theorem eqOne_iff (alpha : F32) : alpha.eqOne = true ↔ alpha = F32.one := by
  cases alpha
  simp [F32.eqOne, F32.one]

/-! ## The type `int` and loops -/

theorem checkInt_nat (z : Int) (m : Nat) (hz : z = (m : Int)) (hm : m ≤ 2147483647) :
    checkInt z = some z := by
  have h1 : INT_MIN ≤ z := by unfold INT_MIN; omega
  have h2 : z ≤ INT_MAX := by unfold INT_MAX; omega
  simp [checkInt, h1, h2]

theorem int_mul_nat (a b : Int) (m : Nat) (hz : a * b = (m : Int)) (hm : m ≤ 2147483647) :
    int_mul a b = some (m : Int) := by
  unfold int_mul
  rw [checkInt_nat (a * b) m hz hm, hz]

theorem int_add_nat (a b : Int) (m : Nat) (hz : a + b = (m : Int)) (hm : m ≤ 2147483647) :
    int_add a b = some (m : Int) := by
  unfold int_add
  rw [checkInt_nat (a + b) m hz hm, hz]

theorem toInt_nat (N : Nat) (h : N ≤ 2147483647) : toInt N = (N : Int) := by
  have hm : N % 4294967296 = N := Nat.mod_eq_of_lt (by omega)
  have hlt : N < 2147483648 := by omega
  simp only [toInt, hm, hlt, if_true]

theorem addMul_nat (p : FloatPtr) (k i : Int) (m : Nat) (hz : k * i = (m : Int))
    (hm : m ≤ 2147483647) : p.addMul k i = some (p.add (m : Int)) := by
  simp [FloatPtr.addMul, int_mul_nat k i m hz hm]

theorem add_add (buf : List F32) (a b : Int) :
    ((FloatPtr.mk buf 0).add a).add b = (FloatPtr.mk buf 0).add (a + b) := by
  simp [FloatPtr.add, add_assoc]

theorem forLoop_some (bound : Int) (s : Nat) (hs : 0 < s) (body : Int → Option Trace) :
    ∀ (n fuel i0 : Nat) (f : Nat → Trace), n ≤ fuel →
      bound = ((i0 + s * n : Nat) : Int) → i0 + s * n ≤ 2147483647 →
      (∀ k, k < n → body ((i0 + s * k : Nat) : Int) = some (f k)) →
      forLoop bound (s : Int) body fuel (i0 : Int) = some ((List.range n).flatMap f) := by
  intro n
  induction n with
  | zero =>
    intro fuel i0 f _ hb _ _
    cases fuel with
    | zero => simp [forLoop]
    | succ fuel =>
      have : ¬ (i0 : Int) < bound := by rw [hb]; push_cast; omega
      simp [forLoop, this]
  | succ n ih =>
    intro fuel i0 f hfuel hb hmax hbody
    cases fuel with
    | zero => omega
    | succ fuel =>
      have hexp : s * (n + 1) = s * n + s := by ring
      rw [hexp] at hb hmax
      have hlt : (i0 : Int) < bound := by rw [hb]; push_cast; omega
      have h0 : body (i0 : Int) = some (f 0) := by simpa using hbody 0 (by omega)
      have hnext : int_add (i0 : Int) (s : Int) = some ((i0 + s : Nat) : Int) :=
        int_add_nat _ _ (i0 + s) (by push_cast; rfl) (by omega)
      have hrec := ih fuel (i0 + s) (fun k => f (k + 1)) (by omega)
        (by rw [hb]; congr 1; ring) (by omega)
        (fun k hk => by
          have := hbody (k + 1) (by omega)
          rw [← this]; congr 2; ring)
      simp only [forLoop, hlt, if_true, h0, hnext, Option.some_bind, hrec, seq2]
      rw [List.range_succ_eq_map]
      simp [List.flatMap_cons, List.flatMap_map, Function.comp_def]

theorem cFor_some (s n : Nat) (hs : 0 < s) (hmax : s * n ≤ 2147483647) (bound step : Int)
    (hb : bound = ((s * n : Nat) : Int)) (hstep : step = (s : Int))
    (body : Int → Option Trace) (f : Nat → Trace)
    (h : ∀ k, k < n → body ((s * k : Nat) : Int) = some (f k)) :
    cFor bound step body = some ((List.range n).flatMap f) := by
  subst hstep
  unfold cFor
  have h0 := forLoop_some bound s hs body n bound.toNat 0 f
    (by rw [hb]; simp; exact Nat.le_mul_of_pos_left n hs) (by simpa using hb) (by simpa using hmax)
    (by intro k hk; simpa using h k hk)
  simpa using h0

theorem toInt_zero : toInt 0 = 0 := by decide

theorem int_mul_zero (k : Int) : int_mul k 0 = some 0 := by
  simp [int_mul, checkInt, INT_MIN, INT_MAX]

theorem cFor_zero (step : Int) (body : Int → Option Trace) : cFor 0 step body = some [] := rfl

theorem cFor_9_3 (body : Int → Option Trace) :
    cFor 9 3 body = seq2 (body 0) (seq2 (body 3) (seq2 (body 6) (some []))) := rfl

theorem cFor_3_3 (body : Int → Option Trace) :
    cFor 3 3 body = seq2 (body 0) (some []) := rfl

/-! ## Traces -/

theorem countP_flatMap_const {α β : Type} (p : β → Bool) (f : α → List β) (c : Nat)
    (l : List α) (h : ∀ a, (f a).countP p = c) :
    (l.flatMap f).countP p = c * l.length := by
  induction l with
  | nil => simp
  | cons a l ih => simp [List.flatMap_cons, List.countP_append, ih, h]; ring

theorem flatMap_range_mul (m n : Nat) (f : Nat → Trace) :
    (List.range (m * n)).flatMap f =
      (List.range n).flatMap fun k => (List.range m).flatMap fun v => f (m * k + v) := by
  induction n with
  | zero => simp
  | succ n ih =>
    rw [Nat.mul_succ, List.range_add, List.flatMap_append, ih, List.range_succ, List.flatMap_append]
    simp [List.flatMap_map]

theorem points_eq_map_range (data : List F32) :
    points data = (List.range (points data).length).map (pointAt data) := by
  apply List.ext_getElem
  · simp
  · intro i h1 h2
    simp [pointAt, List.getD, List.getElem?_eq_getElem h1]

theorem flatMap_single {α β : Type} (l : List α) (g : α → β) :
    l.flatMap (fun a => [g a]) = l.map g := by
  induction l with
  | nil => rfl
  | cons a l ih => simp [List.flatMap_cons, ih]

theorem countP_wrap (p : GLCall → Bool) (mode : GLMode) (f : Nat → Trace) (c N : Nat)
    (hb : p (beginPrim mode) = false) (he : p endPrim = false)
    (h : ∀ k, (f k).countP p = c) :
    (beginPrim mode :: (List.range N).flatMap f ++ [endPrim]).countP p = c * N := by
  simp [List.countP_cons, List.countP_append, hb, he,
    countP_flatMap_const p f c (List.range N) h]

theorem countP_wrap_one (p : GLCall → Bool) (mode : GLMode) (f : Nat → Trace) (N : Nat)
    (hb : p (beginPrim mode) = false) (he : p endPrim = false)
    (h : ∀ k, (f k).countP p = 1) :
    (beginPrim mode :: (List.range N).flatMap f ++ [endPrim]).countP p = N := by
  rw [countP_wrap p mode f 1 N hb he h, Nat.one_mul]

theorem countP_wrap_zero (p : GLCall → Bool) (mode : GLMode) (f : Nat → Trace) (N : Nat)
    (hb : p (beginPrim mode) = false) (he : p endPrim = false)
    (h : ∀ k, (f k).countP p = 0) :
    (beginPrim mode :: (List.range N).flatMap f ++ [endPrim]).countP p = 0 := by
  rw [countP_wrap p mode f 0 N hb he h, Nat.zero_mul]

theorem cFor_one_some (n : Nat) (hmax : n ≤ 2147483647) (body : Int → Option Trace)
    (f : Nat → Trace) (h : ∀ k, k < n → body (k : Int) = some (f k)) :
    cFor (n : Int) 1 body = some ((List.range n).flatMap f) :=
  cFor_some 1 n (by decide) (by omega) (n : Int) 1 (by simp) (by simp) body f
    (by intro k hk; simpa using h k hk)

/-! ## Shapes -/

theorem shape_N3 (N : Nat) (a : PyArray F32) (h : HasShape a [N, 3]) :
    a.dims = [N, 3] ∧ a.data.length = 3 * N := by
  obtain ⟨h1, h2⟩ := h
  refine ⟨h1, ?_⟩
  simp at h2; omega

theorem shape_N23 (N : Nat) (a : PyArray F32) (h : HasShape a [N, 2, 3]) :
    a.dims = [N, 2, 3] ∧ a.data.length = 3 * (2 * N) := by
  obtain ⟨h1, h2⟩ := h
  refine ⟨h1, ?_⟩
  simp at h2; omega

theorem shape_N33 (N : Nat) (a : PyArray F32) (h : HasShape a [N, 3, 3]) :
    a.dims = [N, 3, 3] ∧ a.data.length = 3 * (3 * N) := by
  obtain ⟨h1, h2⟩ := h
  refine ⟨h1, ?_⟩
  simp at h2; omega

/-! ## The Color Resolver -/

theorem get_append (pre l : List F32) (j : Nat) :
    (FloatPtr.mk (pre ++ l) pre.length).get j = l[j]? := by
  have g : (0 : Int) ≤ (pre.length : Int) + (j : Int) := by omega
  have e : ((pre.length : Int) + (j : Int)).toNat = pre.length + j := by omega
  simp only [FloatPtr.get, g, e, if_true]
  rw [List.getElem?_append_right (by omega)]
  simp

theorem gl_color_of_gets (p : FloatPtr) (r g b alpha : F32)
    (h0 : p.get 0 = some r) (h1 : p.get 1 = some g) (h2 : p.get 2 = some b) :
    gl_color p alpha = some [colorCall (r, g, b) alpha] := by
  unfold gl_color colorCall
  by_cases h : alpha = F32.one
  · have h' : alpha.eqOne = true := (eqOne_iff alpha).2 h
    subst h
    simp [h', glColor3fv, FloatPtr.read3, h0, h1, h2]
  · have h' : alpha.eqOne = false := by
      cases hh : alpha.eqOne
      · rfl
      · exact absurd ((eqOne_iff alpha).1 hh) h
    simp [h, h', h0, h1, h2]

theorem gets_of_read3 (p : FloatPtr) (v : Vec3) (h : p.read3 = some v) :
    p.get 0 = some v.1 ∧ p.get 1 = some v.2.1 ∧ p.get 2 = some v.2.2 := by
  unfold FloatPtr.read3 at h
  cases h0 : p.get 0 <;> cases h1 : p.get 1 <;> cases h2 : p.get 2 <;>
    simp [h0, h1, h2] at h
  subst h
  exact ⟨rfl, rfl, rfl⟩

theorem gl_color_add (data : List F32) (z : Int) (p : Nat) (alpha : F32)
    (hz : z = 3 * (p : Int)) (hp : 3 * p + 3 ≤ data.length) :
    gl_color ((FloatPtr.mk data 0).add z) alpha = some [colorCall (pointAt data p) alpha] := by
  obtain ⟨h0, h1, h2⟩ := gets_of_read3 _ _ (read3_add data z p hz hp)
  exact gl_color_of_gets _ _ _ _ alpha h0 h1 h2

/-! ## Calls of a produced trace -/

theorem allCalls_nil (P : GLCall → Prop) : AllCalls P (some []) := by
  intro t h call hc
  cases h
  simp at hc

theorem allCalls_seq2 (P : GLCall → Prop) (a b : Option Trace)
    (ha : AllCalls P a) (hb : AllCalls P b) : AllCalls P (seq2 a b) := by
  intro t h call hc
  cases a with
  | none => simp [seq2] at h
  | some s =>
    cases b with
    | none => simp [seq2] at h
    | some u =>
      simp [seq2] at h
      subst h
      rcases List.mem_append.1 hc with h1 | h1
      · exact ha s rfl call h1
      · exact hb u rfl call h1

theorem allCalls_bind {α : Type} (P : GLCall → Prop) (o : Option α) (f : α → Option Trace)
    (hf : ∀ a, AllCalls P (f a)) : AllCalls P (o.bind f) := by
  cases o with
  | none => intro t h; simp at h
  | some a => simpa using hf a

theorem allCalls_forLoop (P : GLCall → Prop) (bound step : Int) (body : Int → Option Trace)
    (hbody : ∀ i, AllCalls P (body i)) :
    ∀ fuel i, AllCalls P (forLoop bound step body fuel i) := by
  intro fuel
  induction fuel with
  | zero => intro i; exact allCalls_nil P
  | succ fuel ih =>
    intro i
    unfold forLoop
    split
    · exact allCalls_seq2 P _ _ (hbody i) (allCalls_bind P _ _ fun next => ih next)
    · exact allCalls_nil P

theorem allCalls_cFor (P : GLCall → Prop) (bound step : Int) (body : Int → Option Trace)
    (hbody : ∀ i, AllCalls P (body i)) : AllCalls P (cFor bound step body) :=
  allCalls_forLoop P bound step body hbody bound.toNat 0

theorem allCalls_glVertex3fv (P : GLCall → Prop) (hv : ∀ v, P (vertex v)) (p : FloatPtr) :
    AllCalls P (glVertex3fv p) := by
  intro t h call hc
  unfold glVertex3fv at h
  cases hr : p.read3 with
  | none => simp [hr] at h
  | some v =>
    simp [hr] at h
    subst h
    simp at hc
    subst hc
    exact hv v

theorem allCalls_glNormal3fv (P : GLCall → Prop) (hn : ∀ v, P (normal v)) (p : FloatPtr) :
    AllCalls P (glNormal3fv p) := by
  intro t h call hc
  unfold glNormal3fv at h
  cases hr : p.read3 with
  | none => simp [hr] at h
  | some v =>
    simp [hr] at h
    subst h
    simp at hc
    subst hc
    exact hn v

theorem allCalls_glColor3fv (P : GLCall → Prop) (h3 : ∀ v, P (color3 v)) (p : FloatPtr) :
    AllCalls P (glColor3fv p) := by
  intro t h call hc
  unfold glColor3fv at h
  cases hr : p.read3 with
  | none => simp [hr] at h
  | some v =>
    simp [hr] at h
    subst h
    simp at hc
    subst hc
    exact h3 v

theorem allCalls_gl_color (P : GLCall → Prop) (h3 : ∀ v, P (color3 v))
    (h4 : ∀ r g b a, P (color4 r g b a)) (p : FloatPtr) (alpha : F32) :
    AllCalls P (gl_color p alpha) := by
  unfold gl_color
  split
  · exact allCalls_glColor3fv P h3 p
  · intro t h call hc
    cases h0 : p.get 0 <;> cases h1 : p.get 1 <;> cases h2 : p.get 2 <;>
      simp [h0, h1, h2] at h
    subst h
    simp at hc
    subst hc
    exact h4 _ _ _ _

theorem batch_of_allCalls (P : GLCall → Prop) (mode : GLMode) (o : Option Trace)
    (ho : AllCalls P o) (t : Trace)
    (h : (o.bind fun y => some (beginPrim mode :: y ++ [endPrim])) = some t) :
    ∃ body, o = some body ∧ t = beginPrim mode :: body ++ [endPrim] ∧
      ∀ call ∈ body, P call := by
  cases o with
  | none => simp at h
  | some body =>
    simp at h
    exact ⟨body, rfl, h.symm, ho body rfl⟩

theorem draw_lines_calls (P : GLCall → Prop) (hv : ∀ v, P (vertex v))
    (h3 : ∀ v, P (color3 v)) (x : PyArray F32) (c : Option (PyArray F32)) (t : Trace)
    (h : draw_lines x c = some t) :
    ∃ body, t = beginPrim GL_LINES :: body ++ [endPrim] ∧ ∀ call ∈ body, P call := by
  unfold draw_lines at h
  cases hd : x.dims[0]? with
  | none => simp [hd] at h
  | some d =>
    simp only [hd, Option.bind_eq_bind, Option.some_bind, Option.pure_def] at h
    have key : ∀ o : Option Trace, AllCalls P o →
        (o.bind fun y => some (beginPrim GL_LINES :: y ++ [endPrim])) = some t →
        ∃ body, t = beginPrim GL_LINES :: body ++ [endPrim] ∧ ∀ call ∈ body, P call := by
      intro o ho h'
      obtain ⟨body, _, h1, h2⟩ := batch_of_allCalls P GL_LINES o ho t h'
      exact ⟨body, h1, h2⟩
    have hv' : ∀ p, AllCalls P (glVertex3fv p) := allCalls_glVertex3fv P hv
    have hc' : ∀ p, AllCalls P (glColor3fv p) := allCalls_glColor3fv P h3
    split_ifs at h
    · exact key _ (allCalls_bind P _ _ fun b => allCalls_cFor P _ _ _ fun i => hv' _) h
    · exact key _ (allCalls_bind P _ _ fun b => allCalls_cFor P _ _ _ fun i =>
        allCalls_seq2 P _ _ (hc' _)
          (allCalls_seq2 P _ _ (allCalls_bind P _ _ fun p => hv' _)
            (allCalls_bind P _ _ fun p => hv' _))) h
    · exact key _ (allCalls_bind P _ _ fun b => allCalls_cFor P _ _ _ fun i =>
        allCalls_seq2 P _ _ (hc' _) (hv' _)) h
    · exact key _ (allCalls_nil P) h

theorem draw_triangles_calls (P : GLCall → Prop) (hv : ∀ v, P (vertex v))
    (hn : ∀ v, P (normal v)) (h3 : ∀ v, P (color3 v)) (h4 : ∀ r g b a, P (color4 r g b a))
    (x : PyArray F32) (n c : Option (PyArray F32)) (alpha : F32) (t : Trace)
    (h : draw_triangles x n c alpha = some t) :
    ∃ body, t = beginPrim GL_TRIANGLES :: body ++ [endPrim] ∧ ∀ call ∈ body, P call := by
  unfold draw_triangles at h
  cases hd : x.dims[0]? with
  | none => simp [hd] at h
  | some d =>
    simp only [hd, Option.bind_eq_bind, Option.some_bind, Option.pure_def] at h
    have key : ∀ o : Option Trace, AllCalls P o →
        (o.bind fun y => some (beginPrim GL_TRIANGLES :: y ++ [endPrim])) = some t →
        ∃ body, t = beginPrim GL_TRIANGLES :: body ++ [endPrim] ∧
          ∀ call ∈ body, P call := by
      intro o ho h'
      obtain ⟨body, _, h1, h2⟩ := batch_of_allCalls P GL_TRIANGLES o ho t h'
      exact ⟨body, h1, h2⟩
    have hv' : ∀ p, AllCalls P (glVertex3fv p) := allCalls_glVertex3fv P hv
    have hn' : ∀ p, AllCalls P (glNormal3fv p) := allCalls_glNormal3fv P hn
    have hc' : ∀ p, AllCalls P (glColor3fv p) := allCalls_glColor3fv P h3
    have hg' : ∀ p, AllCalls P (gl_color p alpha) := fun p => allCalls_gl_color P h3 h4 p alpha
    have hvs : ∀ i : Int, AllCalls P
        (cFor 9 3 fun j =>
          ((FloatPtr.mk x.data 0).addMul 9 i).bind fun p => glVertex3fv (p.add j)) :=
      fun i => allCalls_cFor P _ _ _ fun j => allCalls_bind P _ _ fun p => hv' _
    split_ifs at h
    · exact key _ (allCalls_bind P _ _ fun b => allCalls_cFor P _ _ _ fun i => hv' _) h
    · exact key _ (allCalls_cFor P _ _ _ fun i =>
        allCalls_seq2 P _ _ (allCalls_bind P _ _ fun p => hn' _) (hvs i)) h
    · exact key _ (allCalls_cFor P _ _ _ fun i =>
        allCalls_seq2 P _ _ (allCalls_bind P _ _ fun p => hg' _) (hvs i)) h
    · exact key _ (allCalls_cFor P _ _ _ fun i =>
        allCalls_seq2 P _ _ (allCalls_bind P _ _ fun p => hg' _)
          (allCalls_seq2 P _ _ (allCalls_bind P _ _ fun p => hn' _) (hvs i))) h
    · exact key _ (allCalls_bind P _ _ fun b => allCalls_cFor P _ _ _ fun i =>
        allCalls_seq2 P _ _ (hc' _) (hv' _)) h
    · exact key _ (allCalls_cFor P _ _ _ fun i =>
        allCalls_seq2 P _ _ (allCalls_bind P _ _ fun p => hn' _)
          (allCalls_cFor P _ _ _ fun j =>
            allCalls_seq2 P _ _ (allCalls_bind P _ _ fun p => hc' _)
              (allCalls_bind P _ _ fun p => hv' _))) h
    · exact key _ (allCalls_nil P) h

theorem draw_triangle_elements_calls (P : GLCall → Prop) (hv : ∀ v, P (vertex v))
    (x : PyArray F32) (e : PyArray Int) (n c : Option (PyArray F32)) (t : Trace)
    (h : draw_triangle_elements x e n c = some t) :
    ∃ body, t = beginPrim GL_TRIANGLES :: body ++ [endPrim] ∧ ∀ call ∈ body, P call := by
  unfold draw_triangle_elements at h
  cases hd : x.dims[0]? with
  | none => rw [hd] at h; cases h
  | some npts =>
    cases hd2 : e.dims[0]? with
    | none => rw [hd, hd2] at h; cases h
    | some ntri =>
      simp only [hd, hd2, Option.bind_eq_bind, Option.some_bind, Option.pure_def] at h
      have hall : ∀ o : Option Trace, AllCalls P o →
          (o.bind fun y => some (beginPrim GL_TRIANGLES :: y ++ [endPrim])) = some t →
          ∃ body, t = beginPrim GL_TRIANGLES :: body ++ [endPrim] ∧
            ∀ call ∈ body, P call := by
        intro o ho h'
        obtain ⟨body, _, h1, h2⟩ := batch_of_allCalls P GL_TRIANGLES o ho t h'
        exact ⟨body, h1, h2⟩
      refine hall _ ?_ h
      apply allCalls_bind
      intro b
      apply allCalls_cFor
      intro i
      apply allCalls_cFor
      intro j
      apply allCalls_bind
      intro k
      apply allCalls_bind
      intro idx
      apply allCalls_bind
      intro p
      exact allCalls_glVertex3fv P hv p

theorem oneBatch_of_body (mode : GLMode) (body : Trace)
    (h : ∀ call ∈ body, call.isBegin = false ∧ call.isEnd = false) :
    OneBatch mode (beginPrim mode :: body ++ [endPrim]) := by
  have hb : body.countP GLCall.isBegin = 0 :=
    List.countP_eq_zero.2 fun call hc => by simp [(h call hc).1]
  have he : body.countP GLCall.isEnd = 0 :=
    List.countP_eq_zero.2 fun call hc => by simp [(h call hc).2]
  refine ⟨rfl, ?_, ?_, ?_⟩
  · rw [List.getLast?_append]; rfl
  · simp [countBegin, List.countP_cons, List.countP_append, hb, GLCall.isBegin]
  · simp [countEnd, List.countP_cons, List.countP_append, he, GLCall.isEnd]

/-! ## The trace of each dispatch branch -/

theorem tri_trace_plain (N : Nat) (x : PyArray F32) (c : Option (PyArray F32)) (alpha : F32)
    (hx : HasShape x [N, 3, 3]) (hc : ndimOr0 c = 0) (hN : 9 * N ≤ 2147483647) :
    draw_triangles x none c alpha = some (beginPrim GL_TRIANGLES ::
      (List.range N).flatMap (fun k =>
        [vertex (x.elem k 0), vertex (x.elem k 1), vertex (x.elem k 2)]) ++ [endPrim]) := by
  obtain ⟨hxd, hxl⟩ := shape_N33 N x hx
  have hnels : toInt N = (N : Int) := toInt_nat N (by omega)
  have hb : int_mul 9 (N : Int) = some ((3 * (3 * N) : Nat) : Int) :=
    int_mul_nat _ _ _ (by push_cast; ring) (by omega)
  have hbody : cFor ((3 * (3 * N) : Nat) : Int) 3
        (fun i => glVertex3fv ((FloatPtr.mk x.data 0).add i))
      = some ((List.range N).flatMap (fun k =>
        [vertex (x.elem k 0), vertex (x.elem k 1), vertex (x.elem k 2)])) := by
    rw [cFor_some 3 (3 * N) (by decide) (by omega) _ 3 rfl rfl _
      (fun p => [vertex (pointAt x.data p)])]
    · rw [flatMap_range_mul 3 N]
      simp only [PyArray.elem, hxd]
      rfl
    · intro k hk
      exact glVertex3fv_add x.data _ k (by push_cast; ring) (by omega)
  simp only [draw_triangles, hxd, hc, dataPtr, if_true, List.getElem?_cons_zero,
    Option.bind_eq_bind, Option.some_bind, Option.pure_def, hnels, hb, hbody]

theorem vertices_9 (x : PyArray F32) (N k : Nat) (hxd : x.dims = [N, 3, 3])
    (hxl : x.data.length = 3 * (3 * N)) (hk : k < N) (h9 : 9 * k ≤ 2147483647) :
    (cFor 9 3 fun j =>
        ((FloatPtr.mk x.data 0).addMul 9 (k : Int)).bind fun p => glVertex3fv (p.add j))
      = some [vertex (x.elem k 0), vertex (x.elem k 1), vertex (x.elem k 2)] := by
  rw [addMul_nat _ 9 (k : Int) (9 * k) (by push_cast; rfl) h9]
  simp only [cFor_9_3, Option.some_bind, add_add, PyArray.elem, hxd]
  rw [glVertex3fv_add x.data _ (3 * k + 0) (by push_cast; ring) (by omega),
    glVertex3fv_add x.data _ (3 * k + 1) (by push_cast; ring) (by omega),
    glVertex3fv_add x.data _ (3 * k + 2) (by push_cast; ring) (by omega)]
  rfl

theorem normal_3 (n : PyArray F32) (N k : Nat) (hnl : n.data.length = 3 * N) (hk : k < N)
    (h3 : 3 * k ≤ 2147483647) :
    (((FloatPtr.mk n.data 0).addMul 3 (k : Int)).bind fun p => glNormal3fv p)
      = some [normal (n.row k)] := by
  rw [addMul_nat _ 3 (k : Int) (3 * k) (by push_cast; rfl) h3]
  simp only [Option.some_bind, PyArray.row]
  exact glNormal3fv_add n.data _ k (by push_cast; ring) (by omega)

theorem color_3 (c : PyArray F32) (N k : Nat) (alpha : F32) (hcl : c.data.length = 3 * N)
    (hk : k < N) (h3 : 3 * k ≤ 2147483647) :
    (((FloatPtr.mk c.data 0).addMul 3 (k : Int)).bind fun p => gl_color p alpha)
      = some [colorCall (c.row k) alpha] := by
  rw [addMul_nat _ 3 (k : Int) (3 * k) (by push_cast; rfl) h3]
  simp only [Option.some_bind, PyArray.row]
  exact gl_color_add c.data _ k alpha (by push_cast; ring) (by omega)

theorem tri_trace_normals (N : Nat) (x n : PyArray F32) (c : Option (PyArray F32))
    (alpha : F32) (hx : HasShape x [N, 3, 3]) (hn : HasShape n [N, 3])
    (hc : ndimOr0 c = 0) (hN : N ≤ 238609295) :
    draw_triangles x (some n) c alpha = some (beginPrim GL_TRIANGLES ::
      (List.range N).flatMap (fun k =>
        [normal (n.row k),
         vertex (x.elem k 0), vertex (x.elem k 1), vertex (x.elem k 2)]) ++ [endPrim]) := by
  obtain ⟨hxd, hxl⟩ := shape_N33 N x hx
  obtain ⟨hnd, hnl⟩ := shape_N3 N n hn
  have hnels : toInt N = (N : Int) := toInt_nat N (by omega)
  have hbody : cFor (N : Int) 1 (fun i =>
      seq2 (((FloatPtr.mk n.data 0).addMul 3 i).bind fun p => glNormal3fv p)
        (cFor 9 3 fun j =>
          ((FloatPtr.mk x.data 0).addMul 9 i).bind fun p => glVertex3fv (p.add j)))
      = some ((List.range N).flatMap (fun k =>
            [normal (n.row k),
             vertex (x.elem k 0), vertex (x.elem k 1), vertex (x.elem k 2)])) := by
    apply cFor_one_some N (by omega)
    intro k hk
    simp only [vertices_9 x N k hxd hxl hk (by omega), normal_3 n N k hnl hk (by omega)]
    rfl
  simp only [draw_triangles, hxd, hc, dataPtr, List.getElem?_cons_zero,
    Option.bind_eq_bind, Option.some_bind, Option.pure_def, hnels, hbody]
  simp

theorem tri_trace_face (N : Nat) (x c : PyArray F32) (alpha : F32)
    (hx : HasShape x [N, 3, 3]) (hc : HasShape c [N, 3]) (hN : N ≤ 238609295) :
    draw_triangles x none (some c) alpha = some (beginPrim GL_TRIANGLES ::
      (List.range N).flatMap (fun k =>
        [colorCall (c.row k) alpha,
         vertex (x.elem k 0), vertex (x.elem k 1), vertex (x.elem k 2)]) ++ [endPrim]) := by
  obtain ⟨hxd, hxl⟩ := shape_N33 N x hx
  obtain ⟨hcd, hcl⟩ := shape_N3 N c hc
  have hnels : toInt N = (N : Int) := toInt_nat N (by omega)
  have hbody : cFor (N : Int) 1 (fun i =>
      seq2 (((FloatPtr.mk c.data 0).addMul 3 i).bind fun p => gl_color p alpha)
        (cFor 9 3 fun j =>
          ((FloatPtr.mk x.data 0).addMul 9 i).bind fun p => glVertex3fv (p.add j)))
      = some ((List.range N).flatMap (fun k =>
            [colorCall (c.row k) alpha,
             vertex (x.elem k 0), vertex (x.elem k 1), vertex (x.elem k 2)])) := by
    apply cFor_one_some N (by omega)
    intro k hk
    simp only [vertices_9 x N k hxd hxl hk (by omega), color_3 c N k alpha hcl hk (by omega)]
    rfl
  simp only [draw_triangles, hxd, hcd, ndimOr0, dataPtr, List.getElem?_cons_zero,
    Option.bind_eq_bind, Option.some_bind, Option.pure_def, hnels, hbody]
  simp

theorem tri_trace_face_normals (N : Nat) (x n c : PyArray F32) (alpha : F32)
    (hx : HasShape x [N, 3, 3]) (hn : HasShape n [N, 3]) (hc : HasShape c [N, 3])
    (hN : N ≤ 238609295) :
    draw_triangles x (some n) (some c) alpha = some (beginPrim GL_TRIANGLES ::
      (List.range N).flatMap (fun k =>
        [colorCall (c.row k) alpha, normal (n.row k),
         vertex (x.elem k 0), vertex (x.elem k 1), vertex (x.elem k 2)]) ++ [endPrim]) := by
  obtain ⟨hxd, hxl⟩ := shape_N33 N x hx
  obtain ⟨hnd, hnl⟩ := shape_N3 N n hn
  obtain ⟨hcd, hcl⟩ := shape_N3 N c hc
  have hnels : toInt N = (N : Int) := toInt_nat N (by omega)
  have hbody : cFor (N : Int) 1 (fun i =>
      seq2 (((FloatPtr.mk c.data 0).addMul 3 i).bind fun p => gl_color p alpha)
        (seq2 (((FloatPtr.mk n.data 0).addMul 3 i).bind fun p => glNormal3fv p)
          (cFor 9 3 fun j =>
            ((FloatPtr.mk x.data 0).addMul 9 i).bind fun p => glVertex3fv (p.add j))))
      = some ((List.range N).flatMap (fun k =>
            [colorCall (c.row k) alpha, normal (n.row k),
             vertex (x.elem k 0), vertex (x.elem k 1), vertex (x.elem k 2)])) := by
    apply cFor_one_some N (by omega)
    intro k hk
    simp only [vertices_9 x N k hxd hxl hk (by omega), normal_3 n N k hnl hk (by omega),
      color_3 c N k alpha hcl hk (by omega)]
    rfl
  simp only [draw_triangles, hxd, hcd, ndimOr0, dataPtr, List.getElem?_cons_zero,
    Option.bind_eq_bind, Option.some_bind, Option.pure_def, hnels, hbody]
  simp

theorem tri_trace_vertex (N : Nat) (x c : PyArray F32) (alpha : F32)
    (hx : HasShape x [N, 3, 3]) (hc : HasShape c [N, 3, 3]) (hN : 9 * N ≤ 2147483647) :
    draw_triangles x none (some c) alpha = some (beginPrim GL_TRIANGLES ::
      (List.range N).flatMap (fun k =>
        [color3 (c.elem k 0), vertex (x.elem k 0),
         color3 (c.elem k 1), vertex (x.elem k 1),
         color3 (c.elem k 2), vertex (x.elem k 2)]) ++ [endPrim]) := by
  obtain ⟨hxd, hxl⟩ := shape_N33 N x hx
  obtain ⟨hcd, hcl⟩ := shape_N33 N c hc
  have hnels : toInt N = (N : Int) := toInt_nat N (by omega)
  have hb : int_mul 9 (N : Int) = some ((3 * (3 * N) : Nat) : Int) :=
    int_mul_nat _ _ _ (by push_cast; ring) (by omega)
  have hbody : cFor ((3 * (3 * N) : Nat) : Int) 3 (fun i =>
      seq2 (glColor3fv ((FloatPtr.mk c.data 0).add i))
        (glVertex3fv ((FloatPtr.mk x.data 0).add i)))
      = some ((List.range N).flatMap (fun k =>
        [color3 (c.elem k 0), vertex (x.elem k 0),
         color3 (c.elem k 1), vertex (x.elem k 1),
         color3 (c.elem k 2), vertex (x.elem k 2)])) := by
    rw [cFor_some 3 (3 * N) (by decide) (by omega) _ 3 rfl rfl _
      (fun p => [color3 (pointAt c.data p), vertex (pointAt x.data p)])]
    · rw [flatMap_range_mul 3 N]
      simp only [PyArray.elem, hxd, hcd]
      rfl
    · intro k hk
      rw [glColor3fv_add c.data _ k (by push_cast; ring) (by omega),
        glVertex3fv_add x.data _ k (by push_cast; ring) (by omega)]
      rfl
  simp only [draw_triangles, hxd, hcd, ndimOr0, dataPtr, List.getElem?_cons_zero,
    Option.bind_eq_bind, Option.some_bind, Option.pure_def, hnels, hb, hbody]
  simp

theorem tri_trace_vertex_normals (N : Nat) (x n c : PyArray F32) (alpha : F32)
    (hx : HasShape x [N, 3, 3]) (hn : HasShape n [N, 3]) (hc : HasShape c [N, 3, 3])
    (hN : N ≤ 238609295) :
    draw_triangles x (some n) (some c) alpha = some (beginPrim GL_TRIANGLES ::
      (List.range N).flatMap (fun k =>
        [normal (n.row k),
         color3 (c.elem k 0), vertex (x.elem k 0),
         color3 (c.elem k 1), vertex (x.elem k 1),
         color3 (c.elem k 2), vertex (x.elem k 2)]) ++ [endPrim]) := by
  obtain ⟨hxd, hxl⟩ := shape_N33 N x hx
  obtain ⟨hnd, hnl⟩ := shape_N3 N n hn
  obtain ⟨hcd, hcl⟩ := shape_N33 N c hc
  have hnels : toInt N = (N : Int) := toInt_nat N (by omega)
  have hbody : cFor (N : Int) 1 (fun i =>
      seq2 (((FloatPtr.mk n.data 0).addMul 3 i).bind fun p => glNormal3fv p)
        (cFor 9 3 fun j =>
          seq2 (((FloatPtr.mk c.data 0).addMul 9 i).bind fun p => glColor3fv (p.add j))
            (((FloatPtr.mk x.data 0).addMul 9 i).bind fun p => glVertex3fv (p.add j))))
      = some ((List.range N).flatMap (fun k =>
            [normal (n.row k),
             color3 (c.elem k 0), vertex (x.elem k 0),
             color3 (c.elem k 1), vertex (x.elem k 1),
             color3 (c.elem k 2), vertex (x.elem k 2)])) := by
    apply cFor_one_some N (by omega)
    intro k hk
    simp only [normal_3 n N k hnl hk (by omega)]
    rw [addMul_nat _ 9 (k : Int) (9 * k) (by push_cast; rfl) (by omega),
      addMul_nat _ 9 (k : Int) (9 * k) (by push_cast; rfl) (by omega)]
    simp only [cFor_9_3, Option.some_bind, add_add, PyArray.elem, hxd, hcd]
    rw [glColor3fv_add c.data _ (3 * k + 0) (by push_cast; ring) (by omega),
      glVertex3fv_add x.data _ (3 * k + 0) (by push_cast; ring) (by omega),
      glColor3fv_add c.data _ (3 * k + 1) (by push_cast; ring) (by omega),
      glVertex3fv_add x.data _ (3 * k + 1) (by push_cast; ring) (by omega),
      glColor3fv_add c.data _ (3 * k + 2) (by push_cast; ring) (by omega),
      glVertex3fv_add x.data _ (3 * k + 2) (by push_cast; ring) (by omega)]
    rfl
  simp only [draw_triangles, hxd, hcd, ndimOr0, dataPtr, List.getElem?_cons_zero,
    Option.bind_eq_bind, Option.some_bind, Option.pure_def, hnels, hbody]
  simp

theorem lines_trace_plain (N : Nat) (x : PyArray F32) (c : Option (PyArray F32))
    (hx : HasShape x [N, 2, 3]) (hc : ndimOr0 c = 0) (hN : 6 * N ≤ 2147483647) :
    draw_lines x c = some (beginPrim GL_LINES ::
      (List.range N).flatMap (fun k =>
        [vertex (x.elem k 0), vertex (x.elem k 1)]) ++ [endPrim]) := by
  obtain ⟨hxd, hxl⟩ := shape_N23 N x hx
  have hnels : toInt N = (N : Int) := toInt_nat N (by omega)
  have hb : int_mul (2 * 3) (N : Int) = some ((3 * (2 * N) : Nat) : Int) :=
    int_mul_nat _ _ _ (by push_cast; ring) (by omega)
  have hbody : cFor ((3 * (2 * N) : Nat) : Int) 3
        (fun i => glVertex3fv ((FloatPtr.mk x.data 0).add i))
      = some ((List.range N).flatMap (fun k =>
        [vertex (x.elem k 0), vertex (x.elem k 1)])) := by
    rw [cFor_some 3 (2 * N) (by decide) (by omega) _ 3 rfl rfl _
      (fun p => [vertex (pointAt x.data p)])]
    · rw [flatMap_range_mul 2 N]
      simp only [PyArray.elem, hxd]
      rfl
    · intro k hk
      exact glVertex3fv_add x.data _ k (by push_cast; ring) (by omega)
  simp only [draw_lines, hxd, hc, dataPtr, if_true, List.getElem?_cons_zero,
    Option.bind_eq_bind, Option.some_bind, Option.pure_def, hnels, hb, hbody]

theorem lines_trace_face (N : Nat) (x c : PyArray F32)
    (hx : HasShape x [N, 2, 3]) (hc : HasShape c [N, 3]) (hN : N ≤ 357913942) :
    draw_lines x (some c) = some (beginPrim GL_LINES ::
      (List.range N).flatMap (fun k =>
        [color3 (c.row k), vertex (x.elem k 0), vertex (x.elem k 1)]) ++ [endPrim]) := by
  obtain ⟨hxd, hxl⟩ := shape_N23 N x hx
  obtain ⟨hcd, hcl⟩ := shape_N3 N c hc
  have hnels : toInt N = (N : Int) := toInt_nat N (by omega)
  have hb : int_mul 3 (N : Int) = some ((3 * N : Nat) : Int) :=
    int_mul_nat _ _ _ (by push_cast; ring) (by omega)
  have hbody : cFor ((3 * N : Nat) : Int) 3 (fun i =>
      seq2 (glColor3fv ((FloatPtr.mk c.data 0).add i))
        (seq2 (((FloatPtr.mk x.data 0).addMul 2 i).bind fun p => glVertex3fv p)
          (((FloatPtr.mk x.data 0).addMul 2 i).bind fun p => glVertex3fv (p.add 3))))
      = some ((List.range N).flatMap (fun k =>
            [color3 (c.row k), vertex (x.elem k 0), vertex (x.elem k 1)])) := by
    apply cFor_some 3 N (by decide) (by omega) _ 3 rfl rfl
    intro k hk
    rw [addMul_nat _ 2 ((3 * k : Nat) : Int) (6 * k) (by push_cast; ring) (by omega)]
    simp only [Option.some_bind, add_add, PyArray.row, PyArray.elem, hxd]
    rw [glColor3fv_add c.data _ k (by push_cast; ring) (by omega),
      glVertex3fv_add x.data _ (2 * k + 0) (by push_cast; ring) (by omega),
      glVertex3fv_add x.data _ (2 * k + 1) (by push_cast; ring) (by omega)]
    rfl
  simp only [draw_lines, hxd, hcd, ndimOr0, dataPtr, List.getElem?_cons_zero,
    Option.bind_eq_bind, Option.some_bind, Option.pure_def, hnels, hb, hbody]
  simp

theorem lines_trace_vertex (N : Nat) (x c : PyArray F32)
    (hx : HasShape x [N, 2, 3]) (hc : HasShape c [N, 2, 3]) (hN : 6 * N ≤ 2147483647) :
    draw_lines x (some c) = some (beginPrim GL_LINES ::
      (List.range N).flatMap (fun k =>
        [color3 (c.elem k 0), vertex (x.elem k 0),
         color3 (c.elem k 1), vertex (x.elem k 1)]) ++ [endPrim]) := by
  obtain ⟨hxd, hxl⟩ := shape_N23 N x hx
  obtain ⟨hcd, hcl⟩ := shape_N23 N c hc
  have hnels : toInt N = (N : Int) := toInt_nat N (by omega)
  have hb : int_mul (2 * 3) (N : Int) = some ((3 * (2 * N) : Nat) : Int) :=
    int_mul_nat _ _ _ (by push_cast; ring) (by omega)
  have hbody : cFor ((3 * (2 * N) : Nat) : Int) 3 (fun i =>
      seq2 (glColor3fv ((FloatPtr.mk c.data 0).add i))
        (glVertex3fv ((FloatPtr.mk x.data 0).add i)))
      = some ((List.range N).flatMap (fun k =>
            [color3 (c.elem k 0), vertex (x.elem k 0),
             color3 (c.elem k 1), vertex (x.elem k 1)])) := by
    rw [cFor_some 3 (2 * N) (by decide) (by omega) _ 3 rfl rfl _
      (fun p => [color3 (pointAt c.data p), vertex (pointAt x.data p)])]
    · rw [flatMap_range_mul 2 N]
      simp only [PyArray.elem, hxd, hcd]
      rfl
    · intro k hk
      rw [glColor3fv_add c.data _ k (by push_cast; ring) (by omega),
        glVertex3fv_add x.data _ k (by push_cast; ring) (by omega)]
      rfl
  simp only [draw_lines, hxd, hcd, ndimOr0, dataPtr, List.getElem?_cons_zero,
    Option.bind_eq_bind, Option.some_bind, Option.pure_def, hnels, hb, hbody]
  simp

theorem elements_trace (M N : Nat) (x : PyArray F32) (e : PyArray Int)
    (n c : Option (PyArray F32)) (hx : HasShape x [M, 3]) (he : HasShape e [N, 3])
    (hN : 3 * N ≤ 2147483647)
    (hfirst : ∀ k, k < N → 0 ≤ e.data.getD (3 * k) 0 ∧ e.data.getD (3 * k) 0 < M ∧
      3 * e.data.getD (3 * k) 0 ≤ 2147483647) :
    draw_triangle_elements x e n c = some (beginPrim GL_TRIANGLES ::
      (List.range N).flatMap (fun k =>
        [vertex (x.row (e.data.getD (3 * k) 0).toNat)]) ++ [endPrim]) := by
  obtain ⟨hxd, hxl⟩ := shape_N3 M x hx
  obtain ⟨hed, hel⟩ := he
  have hel3 : e.data.length = 3 * N := by simp at hel; omega
  have hntri : toInt N = (N : Int) := toInt_nat N (by omega)
  have hb : int_mul 3 (N : Int) = some ((3 * N : Nat) : Int) :=
    int_mul_nat _ _ _ (by push_cast; ring) (by omega)
  have hbody : cFor ((3 * N : Nat) : Int) 3 (fun i => cFor 3 3 fun j =>
        (int_add i j).bind fun k => (getInt e.data k).bind fun idx =>
          ((FloatPtr.mk x.data 0).addMul 3 idx).bind fun p => glVertex3fv p)
      = some ((List.range N).flatMap (fun k =>
        [vertex (x.row (e.data.getD (3 * k) 0).toNat)])) := by
    apply cFor_some 3 N (by decide) (by omega) _ 3 rfl rfl
    intro k hk
    obtain ⟨h0, h1, h2⟩ := hfirst k hk
    have hlt : 3 * k < e.data.length := by omega
    have hget : getInt e.data ((3 * k : Nat) : Int) = some (e.data.getD (3 * k) 0) := by
      have hnn : (0 : Int) ≤ ((3 * k : Nat) : Int) := by omega
      simp only [getInt, hnn, if_true, Int.toNat_ofNat]
      simp [List.getD, List.getElem?_eq_getElem hlt]
    have hadd : int_add ((3 * k : Nat) : Int) 0 = some ((3 * k : Nat) : Int) :=
      int_add_nat _ _ (3 * k) (by simp) (by omega)
    simp only [cFor_3_3, hadd, hget, Option.some_bind, PyArray.row]
    rw [addMul_nat _ 3 (e.data.getD (3 * k) 0) (3 * (e.data.getD (3 * k) 0).toNat)
      (by push_cast; omega) (by omega)]
    simp only [Option.some_bind]
    rw [glVertex3fv_add x.data _ (e.data.getD (3 * k) 0).toNat (by push_cast; rfl) (by omega)]
    rfl
  simp only [draw_triangle_elements, hxd, hed, Option.bind_eq_bind, Option.pure_def,
    List.getElem?_cons_zero, Option.some_bind, hntri, hb, hbody]

/-! ## Filtering traces -/

theorem filter_flatMap_range (p : GLCall → Bool) (f g : Nat → Trace) (l : List Nat)
    (h : ∀ k, (f k).filter p = g k) :
    (l.flatMap f).filter p = l.flatMap g := by
  induction l with
  | nil => rfl
  | cons a l ih => simp [List.flatMap_cons, List.filter_append, ih, h]

theorem filter_wrap_keep (p : GLCall → Bool) (mode : GLMode) (f g : Nat → Trace) (N : Nat)
    (hb : p (beginPrim mode) = true) (he : p endPrim = true)
    (h : ∀ k, (f k).filter p = g k) :
    (beginPrim mode :: (List.range N).flatMap f ++ [endPrim]).filter p
      = beginPrim mode :: (List.range N).flatMap g ++ [endPrim] := by
  simp [List.filter_cons, List.filter_append, hb, he, filter_flatMap_range p f g _ h]

theorem filter_wrap_drop (p : GLCall → Bool) (mode : GLMode) (f g : Nat → Trace) (N : Nat)
    (hb : p (beginPrim mode) = false) (he : p endPrim = false)
    (h : ∀ k, (f k).filter p = g k) :
    (beginPrim mode :: (List.range N).flatMap f ++ [endPrim]).filter p
      = (List.range N).flatMap g := by
  simp [List.filter_cons, List.filter_append, hb, he, filter_flatMap_range p f g _ h]

theorem isNormal_colorCall (rgb : Vec3) (alpha : F32) :
    (colorCall rgb alpha).isNormal = false := by
  unfold colorCall; split <;> rfl

theorem isVertex_colorCall (rgb : Vec3) (alpha : F32) :
    (colorCall rgb alpha).isVertex = false := by
  unfold colorCall; split <;> rfl

theorem triangle_points (N : Nat) (x : PyArray F32) (hx : HasShape x [N, 3, 3]) :
    (List.range N).flatMap (fun k =>
        [vertex (x.elem k 0), vertex (x.elem k 1), vertex (x.elem k 2)])
      = (points x.data).map vertex ∧ (points x.data).length = 3 * N := by
  obtain ⟨hxd, hxl⟩ := shape_N33 N x hx
  have hpl : (points x.data).length = 3 * N := by
    have := length_points x.data; omega
  refine ⟨?_, hpl⟩
  conv_rhs => rw [points_eq_map_range x.data, hpl, List.map_map,
    ← flatMap_single, flatMap_range_mul 3 N]
  simp only [PyArray.elem, hxd]
  rfl

theorem line_points (N : Nat) (x : PyArray F32) (hx : HasShape x [N, 2, 3]) :
    (List.range N).flatMap (fun k => [vertex (x.elem k 0), vertex (x.elem k 1)])
      = (points x.data).map vertex ∧ (points x.data).length = 2 * N := by
  obtain ⟨hxd, hxl⟩ := shape_N23 N x hx
  have hpl : (points x.data).length = 2 * N := by
    have := length_points x.data; omega
  refine ⟨?_, hpl⟩
  conv_rhs => rw [points_eq_map_range x.data, hpl, List.map_map,
    ← flatMap_single, flatMap_range_mul 2 N]
  simp only [PyArray.elem, hxd]
  rfl

theorem ndimOr0_rank0 (a : PyArray F32) (h : a.dims = []) : ndimOr0 (some a) = 0 := by
  simp [ndimOr0, h]

theorem tri_vertices_of_trace (N : Nat) (x : PyArray F32) (hx : HasShape x [N, 3, 3])
    (f : Nat → Trace)
    (hf : ∀ k, (f k).filter GLCall.isVertex =
      [vertex (x.elem k 0), vertex (x.elem k 1), vertex (x.elem k 2)]) :
    (beginPrim GL_TRIANGLES :: (List.range N).flatMap f ++ [endPrim]).filter GLCall.isVertex
      = (points x.data).map vertex := by
  rw [filter_wrap_drop GLCall.isVertex GL_TRIANGLES f _ N rfl rfl hf,
    (triangle_points N x hx).1]

theorem line_vertices_of_trace (N : Nat) (x : PyArray F32) (hx : HasShape x [N, 2, 3])
    (f : Nat → Trace)
    (hf : ∀ k, (f k).filter GLCall.isVertex = [vertex (x.elem k 0), vertex (x.elem k 1)]) :
    (beginPrim GL_LINES :: (List.range N).flatMap f ++ [endPrim]).filter GLCall.isVertex
      = (points x.data).map vertex := by
  rw [filter_wrap_drop GLCall.isVertex GL_LINES f _ N rfl rfl hf, (line_points N x hx).1]

theorem flatMap_congr_mem {α β : Type} (l : List α) (f g : α → List β)
    (h : ∀ a ∈ l, f a = g a) : l.flatMap f = l.flatMap g := by
  induction l with
  | nil => rfl
  | cons a l ih =>
    simp only [List.flatMap_cons]
    rw [h a (List.mem_cons_self a l), ih fun b hb => h b (List.mem_cons_of_mem a hb)]

/-! ## Overflow of `int` arithmetic -/

theorem hasShape_zeros (shape : List Nat) : HasShape (zeros shape) shape := by
  simp [HasShape, zeros]

theorem checkInt_overflow (z : Int) (h : 2147483647 < z) : checkInt z = none := by
  have h2 : ¬ z ≤ INT_MAX := by unfold INT_MAX; omega
  simp [checkInt, h2]

theorem int_mul_overflow (a b : Int) (h : 2147483647 < a * b) : int_mul a b = none :=
  checkInt_overflow _ h

theorem addMul_overflow (p : FloatPtr) (k i : Int) (h : 2147483647 < k * i) :
    p.addMul k i = none := by
  simp [FloatPtr.addMul, int_mul_overflow k i h]

theorem seq2_none_left (b : Option Trace) : seq2 none b = none := rfl

theorem seq2_none_right (a : Option Trace) : seq2 a none = none := by
  cases a <;> rfl

theorem int_add_eq (a b z : Int) (h : int_add a b = some z) : z = a + b := by
  unfold int_add checkInt at h
  split at h
  · exact (Option.some.inj h).symm
  · cases h

theorem forLoop_none (bound : Int) (s : Nat) (body : Int → Option Trace) :
    ∀ (n fuel i0 : Nat), n < fuel → ((i0 + s * n : Nat) : Int) < bound →
      body ((i0 + s * n : Nat) : Int) = none →
      forLoop bound (s : Int) body fuel (i0 : Int) = none := by
  intro n
  induction n with
  | zero =>
    intro fuel i0 hfuel hlt hbody
    cases fuel with
    | zero => omega
    | succ fuel =>
      have hlt' : (i0 : Int) < bound := by simpa using hlt
      have hb : body (i0 : Int) = none := by simpa using hbody
      simp only [forLoop, hlt', if_true, hb, seq2_none_left]
  | succ n ih =>
    intro fuel i0 hfuel hlt hbody
    cases fuel with
    | zero => omega
    | succ fuel =>
      have hexp : s * (n + 1) = s + s * n := by ring
      rw [hexp] at hlt hbody
      have hlt' : (i0 : Int) < bound := by push_cast at hlt; omega
      simp only [forLoop, hlt', if_true]
      cases hnext : int_add (i0 : Int) (s : Int) with
      | none => simp [seq2_none_right]
      | some next =>
        have hz := int_add_eq _ _ _ hnext
        have hz' : next = ((i0 + s : Nat) : Int) := by rw [hz]; push_cast; rfl
        subst hz'
        have := ih fuel (i0 + s) (by omega) (by rw [← add_assoc] at hlt; exact hlt)
          (by rw [← add_assoc] at hbody; exact hbody)
        simp only [Option.some_bind, this, seq2_none_right]

theorem cFor_none (s n : Nat) (bound step : Int) (hstep : step = (s : Int))
    (hlt : ((s * n : Nat) : Int) < bound) (hs : 0 < s) (body : Int → Option Trace)
    (hbody : body ((s * n : Nat) : Int) = none) : cFor bound step body = none := by
  subst hstep
  unfold cFor
  have hfuel : n < bound.toNat := by
    have : n ≤ s * n := Nat.le_mul_of_pos_left n hs
    omega
  have := forLoop_none bound s body n bound.toNat 0 hfuel (by simpa using hlt)
    (by simpa using hbody)
  simpa using this

theorem tri_flat_overflow (x : PyArray F32) (c : Option (PyArray F32)) (alpha : F32)
    (N : Nat) (rest : List Nat) (hx : x.dims = N :: rest)
    (hnd : ndimOr0 c = 0 ∨ ndimOr0 c = 3) (hN : N ≤ 2147483647) (hover : 2147483647 < 9 * N) :
    draw_triangles x none c alpha = none := by
  have hnels : toInt N = (N : Int) := toInt_nat N hN
  have hb : int_mul 9 (N : Int) = none := int_mul_overflow _ _ (by omega)
  rcases hnd with h | h <;>
    simp [draw_triangles, hx, h, dataPtr, hnels, hb]

theorem lines_flat_overflow (x : PyArray F32) (c : Option (PyArray F32))
    (N : Nat) (rest : List Nat) (hx : x.dims = N :: rest)
    (hnd : ndimOr0 c = 0 ∨ ndimOr0 c = 3) (hN : N ≤ 2147483647) (hover : 2147483647 < 6 * N) :
    draw_lines x c = none := by
  have hnels : toInt N = (N : Int) := toInt_nat N hN
  have hb : int_mul (2 * 3) (N : Int) = none := int_mul_overflow _ _ (by omega)
  rcases hnd with h | h <;>
    simp only [draw_lines, hx, h, hnels, hb, List.getElem?_cons_zero, Option.bind_eq_bind,
      Option.some_bind, Option.none_bind, Option.pure_def] <;> simp

theorem lines_face_overflow (x : PyArray F32) (c : Option (PyArray F32))
    (N : Nat) (rest : List Nat) (hx : x.dims = N :: rest) (hnd : ndimOr0 c = 2)
    (hN : 3 * N ≤ 2147483647) (hover : 357913942 < N) :
    draw_lines x c = none := by
  have hnels : toInt N = (N : Int) := toInt_nat N (by omega)
  have hb : int_mul 3 (N : Int) = some ((3 * N : Nat) : Int) :=
    int_mul_nat _ _ _ (by push_cast; ring) hN
  have hbody : cFor ((3 * N : Nat) : Int) 3 (fun i =>
      seq2 (glColor3fv ((dataPtr c).add i))
        (seq2 (((FloatPtr.mk x.data 0).addMul 2 i).bind fun p => glVertex3fv p)
          (((FloatPtr.mk x.data 0).addMul 2 i).bind fun p => glVertex3fv (p.add 3))))
      = none := by
    apply cFor_none 3 357913942 _ _ rfl (by push_cast; omega) (by decide)
    rw [addMul_overflow _ 2 _ (by norm_num)]
    simp only [Option.none_bind, seq2_none_left, seq2_none_right]
  simp only [draw_lines, hx, hnd, hnels, hb, hbody, List.getElem?_cons_zero,
    Option.bind_eq_bind, Option.some_bind, Option.none_bind, Option.pure_def]
  simp

theorem tri_nested_overflow (x : PyArray F32) (n c : Option (PyArray F32)) (alpha : F32)
    (N : Nat) (rest : List Nat) (hx : x.dims = N :: rest)
    (hcase : ndimOr0 c = 2 ∨ (n ≠ none ∧ (ndimOr0 c = 0 ∨ ndimOr0 c = 3)))
    (hN : N ≤ 2147483647) (hover : 238609295 < N) :
    draw_triangles x n c alpha = none := by
  have hnels : toInt N = (N : Int) := toInt_nat N hN
  have hx9 : ∀ p : FloatPtr, p.addMul 9 ((1 * 238609295 : Nat) : Int) = none :=
    fun p => addMul_overflow p 9 _ (by norm_num)
  have hlt : ((1 * 238609295 : Nat) : Int) < (N : Int) := by push_cast; omega
  have hv : ∀ first : Int → Option Trace, cFor (N : Int) 1 (fun i =>
      seq2 (first i) (cFor 9 3 fun j =>
        ((FloatPtr.mk x.data 0).addMul 9 i).bind fun p => glVertex3fv (p.add j))) = none := by
    intro first
    apply cFor_none 1 238609295 _ _ rfl hlt (by decide)
    simp only [cFor_9_3, hx9, Option.none_bind, seq2_none_left, seq2_none_right]
  have hv2 : ∀ first second : Int → Option Trace, cFor (N : Int) 1 (fun i =>
      seq2 (first i) (seq2 (second i) (cFor 9 3 fun j =>
        ((FloatPtr.mk x.data 0).addMul 9 i).bind fun p => glVertex3fv (p.add j)))) = none := by
    intro first second
    apply cFor_none 1 238609295 _ _ rfl hlt (by decide)
    simp only [cFor_9_3, hx9, Option.none_bind, seq2_none_left, seq2_none_right]
  have hv3 : ∀ first : Int → Option Trace, cFor (N : Int) 1 (fun i =>
      seq2 (first i) (cFor 9 3 fun j =>
        seq2 (((dataPtr c).addMul 9 i).bind fun p => glColor3fv (p.add j))
          (((FloatPtr.mk x.data 0).addMul 9 i).bind fun p => glVertex3fv (p.add j)))) = none := by
    intro first
    apply cFor_none 1 238609295 _ _ rfl hlt (by decide)
    simp only [cFor_9_3, hx9, Option.none_bind, seq2_none_left, seq2_none_right]
  have hnull : ∀ m : PyArray F32, dataPtr (some m) ≠ FloatPtr.null := by
    intro m h; cases h
  rcases hcase with h2 | ⟨hn, h0 | h3⟩
  · simp only [draw_triangles, hx, h2, hnels, List.getElem?_cons_zero, Option.bind_eq_bind,
      Option.some_bind, Option.pure_def, hv, hv2]
    simp
  · cases n with
    | none => exact absurd rfl hn
    | some m =>
      simp only [draw_triangles, hx, h0, hnels, List.getElem?_cons_zero, Option.bind_eq_bind,
        Option.some_bind, Option.pure_def, hv, hnull m, if_true, if_false]
      simp
  · cases n with
    | none => exact absurd rfl hn
    | some m =>
      simp only [draw_triangles, hx, h3, hnels, List.getElem?_cons_zero, Option.bind_eq_bind,
        Option.some_bind, Option.pure_def, hv3, hnull m, if_true, if_false]
      simp

theorem elements_overflow (x : PyArray F32) (e : PyArray Int) (n c : Option (PyArray F32))
    (M : Nat) (rest : List Nat) (idx b2 b3 : Int) (hx : x.dims = M :: rest)
    (he : e = ⟨[1, 3], [idx, b2, b3]⟩) (hover : 2147483647 < 3 * idx) :
    draw_triangle_elements x e n c = none := by
  subst he
  have hntri : toInt 1 = 1 := by decide
  have hb : int_mul 3 1 = some 3 := by decide
  have hadd : int_add 0 0 = some 0 := by decide
  have hget : getInt [idx, b2, b3] 0 = some idx := by simp [getInt]
  have hmul : ∀ p : FloatPtr, p.addMul 3 idx = none := fun p => addMul_overflow p 3 idx hover
  simp only [draw_triangle_elements, hx, List.getElem?_cons_zero, Option.bind_eq_bind,
    Option.some_bind, Option.pure_def, hntri, hb, cFor_3_3, hadd, hget, hmul,
    Option.none_bind, seq2_none_left]

/-! ## Claims about `draw_triangle_elements` and the Color Resolver -/

/-- C1 (evaluation at the failing input): for the vertex buffer
`[[0,0,0],[1,0,0],[0,1,0],[1,1,0]]` and the index buffer `[[0,1,2],[1,3,2]]`,
`draw_triangle_elements` emits two vertex calls, `(0,0,0)` and `(1,0,0)`, one per
triplet, and not the six vertex calls of two triangles. -/
theorem draw_triangle_elements_example_two_vertices :
    draw_triangle_elements exVertices exIndices none none =
        some [beginPrim GL_TRIANGLES,
              vertex (F32.zero, F32.zero, F32.zero),
              vertex (F32.one, F32.zero, F32.zero),
              endPrim]
    ∧ (∀ t, draw_triangle_elements exVertices exIndices none none = some t →
        countVertex t = 2 ∧ countVertex t ≠ 3 * 2) := by
  have h : draw_triangle_elements exVertices exIndices none none =
        some [beginPrim GL_TRIANGLES,
              vertex (F32.zero, F32.zero, F32.zero),
              vertex (F32.one, F32.zero, F32.zero),
              endPrim] := by decide
  refine ⟨h, ?_⟩
  intro t ht
  rw [h] at ht
  cases ht
  decide

/-- C2 (evaluation at the failing input): with a per-vertex color buffer of
shape `[1,3,3]` and `alpha = 0.5`, `draw_triangles` emits three 3-component
color calls, none of which carries `alpha`, with and without normals. -/
theorem draw_triangles_vertex_colors_drop_alpha :
    draw_triangles exTriangle none (some exVertexColors) F32.half =
        some [beginPrim GL_TRIANGLES,
              color3 (F32.one, F32.zero, F32.zero), vertex (F32.zero, F32.zero, F32.zero),
              color3 (F32.zero, F32.one, F32.zero), vertex (F32.one, F32.zero, F32.zero),
              color3 (F32.zero, F32.zero, F32.one), vertex (F32.zero, F32.one, F32.zero),
              endPrim]
    ∧ draw_triangles exTriangle (some exNormals) (some exVertexColors) F32.half =
        some [beginPrim GL_TRIANGLES,
              normal (F32.zero, F32.zero, F32.one),
              color3 (F32.one, F32.zero, F32.zero), vertex (F32.zero, F32.zero, F32.zero),
              color3 (F32.zero, F32.one, F32.zero), vertex (F32.one, F32.zero, F32.zero),
              color3 (F32.zero, F32.zero, F32.one), vertex (F32.zero, F32.one, F32.zero),
              endPrim]
    ∧ F32.half ≠ F32.one := by
  refine ⟨by decide, by decide, by decide⟩

/-- C3: `gl_color`, given a pointer to three floats `r, g, b` anywhere in a
buffer, emits exactly one call: `color3 (r,g,b)` if and only if `alpha` is `1.0`,
and `color4 r g b alpha` otherwise; for `alpha` equal to `0.5`, `0.0` and `0.999`
the call is the 4-component one. -/
theorem gl_color_three_iff_alpha_one (pre post : List F32) (r g b alpha : F32) :
    gl_color (FloatPtr.mk (pre ++ r :: g :: b :: post) pre.length) alpha
        = some [if alpha = F32.one then color3 (r, g, b) else color4 r g b alpha]
    ∧ (gl_color (FloatPtr.mk (pre ++ r :: g :: b :: post) pre.length) alpha
        = some [color3 (r, g, b)] ↔ alpha = F32.one)
    ∧ (gl_color (FloatPtr.mk (pre ++ r :: g :: b :: post) pre.length) alpha
        = some [color4 r g b alpha] ↔ alpha ≠ F32.one)
    ∧ gl_color (FloatPtr.mk (pre ++ r :: g :: b :: post) pre.length) F32.one
        = some [color3 (r, g, b)]
    ∧ gl_color (FloatPtr.mk (pre ++ r :: g :: b :: post) pre.length) F32.half
        = some [color4 r g b F32.half]
    ∧ gl_color (FloatPtr.mk (pre ++ r :: g :: b :: post) pre.length) F32.zero
        = some [color4 r g b F32.zero]
    ∧ gl_color (FloatPtr.mk (pre ++ r :: g :: b :: post) pre.length) F32.near1
        = some [color4 r g b F32.near1] := by
  have h : ∀ a, gl_color (FloatPtr.mk (pre ++ r :: g :: b :: post) pre.length) a
      = some [colorCall (r, g, b) a] := fun a =>
    gl_color_of_gets (FloatPtr.mk (pre ++ r :: g :: b :: post) pre.length) r g b a
      (by rw [get_append]; simp) (by rw [get_append]; simp) (by rw [get_append]; simp)
  refine ⟨?_, ?_, ?_, ?_, ?_, ?_, ?_⟩
  · rw [h]; rfl
  · rw [h]; unfold colorCall; by_cases ha : alpha = F32.one <;> simp [ha]
  · rw [h]; unfold colorCall; by_cases ha : alpha = F32.one <;> simp [ha]
  · rw [h]; rfl
  · rw [h]; rfl
  · rw [h]; rfl
  · rw [h]; rfl

/-! ## Claims about `draw_triangles` -/

/-- C4 (counterexample): for `N = 238609296` triangles with normals of shape
`[N,3]` and per-vertex colors of shape `[N,3,3]`, the `int` product `9*i`
overflows in the last iteration and `draw_triangles` has no defined trace. -/
theorem draw_triangles_normals_vertex_colors_overflow :
    HasShape (zeros [238609296, 3, 3]) [238609296, 3, 3] ∧
    HasShape (zeros [238609296, 3]) [238609296, 3] ∧
    draw_triangles (zeros [238609296, 3, 3]) (some (zeros [238609296, 3]))
      (some (zeros [238609296, 3, 3])) F32.one = none :=
  ⟨hasShape_zeros _, hasShape_zeros _,
    tri_nested_overflow _ _ _ _ 238609296 [3, 3] rfl
      (Or.inr ⟨Option.some_ne_none _, Or.inr rfl⟩) (by norm_num) (by norm_num)⟩

/-- C4 (amended): for `N ≤ 238609295`, with coords of shape `[N,3,3]`, normals
of shape `[N,3]` and per-vertex colors of shape `[N,3,3]`, `draw_triangles`
emits, for each triangle `k` in order, `normal normals[k]` and then for
`v = 0,1,2` the call `color3 colors[k][v]` immediately followed by
`vertex coords[k][v]`: `N` normal calls, `3N` color calls and `3N` vertex
calls. -/
theorem draw_triangles_normals_vertex_colors (N : Nat) (x n c : PyArray F32) (alpha : F32)
    (hx : HasShape x [N, 3, 3]) (hn : HasShape n [N, 3]) (hc : HasShape c [N, 3, 3])
    (hN : N ≤ 238609295) :
    ∃ t, draw_triangles x (some n) (some c) alpha = some t ∧
      t = beginPrim GL_TRIANGLES ::
          (List.range N).flatMap (fun k =>
            [normal (n.row k),
             color3 (c.elem k 0), vertex (x.elem k 0),
             color3 (c.elem k 1), vertex (x.elem k 1),
             color3 (c.elem k 2), vertex (x.elem k 2)]) ++ [endPrim] ∧
      countNormal t = N ∧ countColor t = 3 * N ∧ countVertex t = 3 * N := by
  refine ⟨_, tri_trace_vertex_normals N x n c alpha hx hn hc hN, rfl, ?_, ?_, ?_⟩
  · exact countP_wrap_one GLCall.isNormal GL_TRIANGLES _ N rfl rfl (fun _ => rfl)
  · exact countP_wrap GLCall.isColor GL_TRIANGLES _ 3 N rfl rfl (fun _ => rfl)
  · exact countP_wrap GLCall.isVertex GL_TRIANGLES _ 3 N rfl rfl (fun _ => rfl)

/-- Witness of C4 on one triangle. -/
theorem draw_triangles_normals_vertex_colors_witness :
    HasShape exTriangle [1, 3, 3] ∧ HasShape exNormals [1, 3] ∧
      HasShape exVertexColors [1, 3, 3] ∧ 1 ≤ 238609295 ∧
    ∃ t, draw_triangles exTriangle (some exNormals) (some exVertexColors) F32.half = some t ∧
      t = beginPrim GL_TRIANGLES ::
          (List.range 1).flatMap (fun k =>
            [normal (exNormals.row k),
             color3 (exVertexColors.elem k 0), vertex (exTriangle.elem k 0),
             color3 (exVertexColors.elem k 1), vertex (exTriangle.elem k 1),
             color3 (exVertexColors.elem k 2), vertex (exTriangle.elem k 2)]) ++ [endPrim] ∧
      countNormal t = 1 ∧ countColor t = 3 * 1 ∧ countVertex t = 3 * 1 :=
  ⟨by decide, by decide, by decide, by decide,
    draw_triangles_normals_vertex_colors 1 exTriangle exNormals exVertexColors F32.half
      (by decide) (by decide) (by decide) (by decide)⟩

/-- C5 (counterexample): for `N = 238609296` triangles with per-primitive colors
of shape `[N,3]`, with or without normals, the `int` product `9*i` overflows in
the last iteration and `draw_triangles` has no defined trace. -/
theorem draw_triangles_face_colors_overflow :
    HasShape (zeros [238609296, 3, 3]) [238609296, 3, 3] ∧
    HasShape (zeros [238609296, 3]) [238609296, 3] ∧
    draw_triangles (zeros [238609296, 3, 3]) (some (zeros [238609296, 3]))
      (some (zeros [238609296, 3])) F32.half = none ∧
    draw_triangles (zeros [238609296, 3, 3]) none (some (zeros [238609296, 3])) F32.half
      = none :=
  ⟨hasShape_zeros _, hasShape_zeros _,
    tri_nested_overflow _ _ _ _ 238609296 [3, 3] rfl (Or.inl rfl) (by norm_num) (by norm_num),
    tri_nested_overflow _ _ _ _ 238609296 [3, 3] rfl (Or.inl rfl) (by norm_num) (by norm_num)⟩

/-- C5 (amended): for `N ≤ 238609295`, with a per-primitive color buffer of
shape `[N,3]`, `draw_triangles` emits for each triangle `k` in order the color
call of `gl_color` for `colors[k]` and `alpha`, then `normal normals[k]`, then
the three vertex calls `coords[k][0..2]`; with normals absent the segment is the
same without the normal call. -/
theorem draw_triangles_face_colors (N : Nat) (x n c : PyArray F32) (alpha : F32)
    (hx : HasShape x [N, 3, 3]) (hn : HasShape n [N, 3]) (hc : HasShape c [N, 3])
    (hN : N ≤ 238609295) :
    draw_triangles x (some n) (some c) alpha =
        some (beginPrim GL_TRIANGLES ::
          (List.range N).flatMap (fun k =>
            [colorCall (c.row k) alpha, normal (n.row k),
             vertex (x.elem k 0), vertex (x.elem k 1), vertex (x.elem k 2)]) ++ [endPrim])
    ∧ draw_triangles x none (some c) alpha =
        some (beginPrim GL_TRIANGLES ::
          (List.range N).flatMap (fun k =>
            [colorCall (c.row k) alpha,
             vertex (x.elem k 0), vertex (x.elem k 1), vertex (x.elem k 2)]) ++ [endPrim])
    ∧ (∀ k : Nat, k < N →
        ((dataPtr (some c)).addMul 3 (k : Int)).bind (fun p => gl_color p alpha)
          = some [colorCall (c.row k) alpha]) := by
  refine ⟨tri_trace_face_normals N x n c alpha hx hn hc hN,
    tri_trace_face N x c alpha hx hc hN, ?_⟩
  intro k hk
  exact color_3 c N k alpha (shape_N3 N c hc).2 hk (by omega)

/-- Witness of C5 on one triangle with `alpha = 0.5`. -/
theorem draw_triangles_face_colors_witness :
    HasShape exTriangle [1, 3, 3] ∧ HasShape exNormals [1, 3] ∧
      HasShape exFaceColors [1, 3] ∧ 1 ≤ 238609295 ∧
    (draw_triangles exTriangle (some exNormals) (some exFaceColors) F32.half =
        some (beginPrim GL_TRIANGLES ::
          (List.range 1).flatMap (fun k =>
            [colorCall (exFaceColors.row k) F32.half, normal (exNormals.row k),
             vertex (exTriangle.elem k 0), vertex (exTriangle.elem k 1),
             vertex (exTriangle.elem k 2)]) ++ [endPrim])
    ∧ draw_triangles exTriangle none (some exFaceColors) F32.half =
        some (beginPrim GL_TRIANGLES ::
          (List.range 1).flatMap (fun k =>
            [colorCall (exFaceColors.row k) F32.half,
             vertex (exTriangle.elem k 0), vertex (exTriangle.elem k 1),
             vertex (exTriangle.elem k 2)]) ++ [endPrim])
    ∧ (∀ k : Nat, k < 1 →
        ((dataPtr (some exFaceColors)).addMul 3 (k : Int)).bind (fun p => gl_color p F32.half)
          = some [colorCall (exFaceColors.row k) F32.half])) :=
  ⟨by decide, by decide, by decide, by decide,
    draw_triangles_face_colors 1 exTriangle exNormals exFaceColors F32.half
      (by decide) (by decide) (by decide) (by decide)⟩

/-- C6 (counterexample): for `N = 238609296` triangles with normals of shape
`[N,3]` and no color, the `int` product `9*i` overflows in the last iteration
and `draw_triangles` has no defined trace. -/
theorem draw_triangles_normals_only_overflow :
    HasShape (zeros [238609296, 3, 3]) [238609296, 3, 3] ∧
    HasShape (zeros [238609296, 3]) [238609296, 3] ∧
    draw_triangles (zeros [238609296, 3, 3]) (some (zeros [238609296, 3])) none F32.one
      = none :=
  ⟨hasShape_zeros _, hasShape_zeros _,
    tri_nested_overflow _ _ _ _ 238609296 [3, 3] rfl
      (Or.inr ⟨Option.some_ne_none _, Or.inl rfl⟩) (by norm_num) (by norm_num)⟩

/-- C6 (amended): for `N ≤ 238609295`, with normals of shape `[N,3]` and no
color (rank 0), `draw_triangles` emits no color call and, for each triangle `k`
in order, `normal normals[k]` followed by the three vertex calls
`coords[k][0..2]`: `N` normal calls and `3N` vertex calls. -/
theorem draw_triangles_normals_only (N : Nat) (x n : PyArray F32)
    (c : Option (PyArray F32)) (alpha : F32)
    (hx : HasShape x [N, 3, 3]) (hn : HasShape n [N, 3]) (hc : ndimOr0 c = 0)
    (hN : N ≤ 238609295) :
    ∃ t, draw_triangles x (some n) c alpha = some t ∧
      t = beginPrim GL_TRIANGLES ::
          (List.range N).flatMap (fun k =>
            [normal (n.row k),
             vertex (x.elem k 0), vertex (x.elem k 1), vertex (x.elem k 2)]) ++ [endPrim] ∧
      countColor t = 0 ∧ countNormal t = N ∧ countVertex t = 3 * N := by
  refine ⟨_, tri_trace_normals N x n c alpha hx hn hc hN, rfl, ?_, ?_, ?_⟩
  · exact countP_wrap_zero GLCall.isColor GL_TRIANGLES _ N rfl rfl (fun _ => rfl)
  · exact countP_wrap_one GLCall.isNormal GL_TRIANGLES _ N rfl rfl (fun _ => rfl)
  · exact countP_wrap GLCall.isVertex GL_TRIANGLES _ 3 N rfl rfl (fun _ => rfl)

/-- Witness of C6 on one triangle. -/
theorem draw_triangles_normals_only_witness :
    HasShape exTriangle [1, 3, 3] ∧ HasShape exNormals [1, 3] ∧ ndimOr0 none = 0 ∧
      1 ≤ 238609295 ∧
    ∃ t, draw_triangles exTriangle (some exNormals) none F32.one = some t ∧
      t = beginPrim GL_TRIANGLES ::
          (List.range 1).flatMap (fun k =>
            [normal (exNormals.row k),
             vertex (exTriangle.elem k 0), vertex (exTriangle.elem k 1),
             vertex (exTriangle.elem k 2)]) ++ [endPrim] ∧
      countColor t = 0 ∧ countNormal t = 1 ∧ countVertex t = 3 * 1 :=
  ⟨by decide, by decide, by decide, by decide,
    draw_triangles_normals_only 1 exTriangle exNormals none F32.one
      (by decide) (by decide) (by decide) (by decide)⟩

/-- C7 (counterexample): for `N = 238609295` triangles without normals and
without color, the loop bound `9*nels` overflows `int` and `draw_triangles` has
no defined trace. -/
theorem draw_triangles_coords_only_overflow :
    HasShape (zeros [238609295, 3, 3]) [238609295, 3, 3] ∧
    draw_triangles (zeros [238609295, 3, 3]) none none F32.one = none :=
  ⟨hasShape_zeros _,
    tri_flat_overflow _ none _ 238609295 [3, 3] rfl (Or.inl rfl) (by norm_num) (by norm_num)⟩

/-- C7 (amended): for `9N ≤ 2147483647`, with coords of shape `[N,3,3]`, normals
absent and no color (rank 0), `draw_triangles` emits `begin(TRIANGLES)`, then
one vertex call for each of the `3N` points of coords in buffer order, then
`end`: no color call and no normal call. -/
theorem draw_triangles_coords_only (N : Nat) (x : PyArray F32)
    (c : Option (PyArray F32)) (alpha : F32)
    (hx : HasShape x [N, 3, 3]) (hc : ndimOr0 c = 0) (hN : 9 * N ≤ 2147483647) :
    ∃ t, draw_triangles x none c alpha = some t ∧
      t = beginPrim GL_TRIANGLES :: (points x.data).map vertex ++ [endPrim] ∧
      (points x.data).length = 3 * N ∧
      countVertex t = 3 * N ∧ countColor t = 0 ∧ countNormal t = 0 := by
  obtain ⟨hpts, hpl⟩ := triangle_points N x hx
  refine ⟨_, (tri_trace_plain N x c alpha hx hc hN).trans (by rw [hpts]), rfl, hpl, ?_, ?_, ?_⟩
  · simp [countVertex, List.countP_cons, List.countP_append, GLCall.isVertex,
      List.countP_map, Function.comp_def, hpl]
  · simp [countColor, List.countP_cons, List.countP_append, GLCall.isColor,
      List.countP_map, Function.comp_def]
  · simp [countNormal, List.countP_cons, List.countP_append, GLCall.isNormal,
      List.countP_map, Function.comp_def]

/-- Witness of C7 on one triangle. -/
theorem draw_triangles_coords_only_witness :
    HasShape exTriangle [1, 3, 3] ∧ ndimOr0 none = 0 ∧ 9 * 1 ≤ 2147483647 ∧
    ∃ t, draw_triangles exTriangle none none F32.one = some t ∧
      t = beginPrim GL_TRIANGLES :: (points exTriangle.data).map vertex ++ [endPrim] ∧
      (points exTriangle.data).length = 3 * 1 ∧
      countVertex t = 3 * 1 ∧ countColor t = 0 ∧ countNormal t = 0 :=
  ⟨by decide, by decide, by decide,
    draw_triangles_coords_only 1 exTriangle none F32.one (by decide) (by decide) (by decide)⟩

/-! ## Claims about `draw_lines` -/

/-- C8 (counterexample): for `N = 357913943` segments with per-primitive colors
of shape `[N,3]`, the `int` product `2*i` overflows in the last iteration and
`draw_lines` has no defined trace. -/
theorem draw_lines_segment_colors_overflow :
    HasShape (zeros [357913943, 2, 3]) [357913943, 2, 3] ∧
    HasShape (zeros [357913943, 3]) [357913943, 3] ∧
    draw_lines (zeros [357913943, 2, 3]) (some (zeros [357913943, 3])) = none :=
  ⟨hasShape_zeros _, hasShape_zeros _,
    lines_face_overflow _ _ 357913943 [2, 3] rfl rfl (by norm_num) (by norm_num)⟩

/-- C8 (amended): for `N ≤ 357913942`, with coords of shape `[N,2,3]` and
per-primitive colors of shape `[N,3]`, `draw_lines` emits for each segment `k`
in order `color3 colors[k]` immediately followed by `vertex coords[k][0]` and
`vertex coords[k][1]`, with nothing in between: `N` color calls and `2N` vertex
calls. -/
theorem draw_lines_segment_colors (N : Nat) (x c : PyArray F32)
    (hx : HasShape x [N, 2, 3]) (hc : HasShape c [N, 3]) (hN : N ≤ 357913942) :
    ∃ t, draw_lines x (some c) = some t ∧
      t = beginPrim GL_LINES ::
          (List.range N).flatMap (fun k =>
            [color3 (c.row k), vertex (x.elem k 0), vertex (x.elem k 1)]) ++ [endPrim] ∧
      countColor t = N ∧ countVertex t = 2 * N := by
  refine ⟨_, lines_trace_face N x c hx hc hN, rfl, ?_, ?_⟩
  · exact countP_wrap_one GLCall.isColor GL_LINES _ N rfl rfl (fun _ => rfl)
  · exact countP_wrap GLCall.isVertex GL_LINES _ 2 N rfl rfl (fun _ => rfl)

/-- Witness of C8 on one segment. -/
theorem draw_lines_segment_colors_witness :
    HasShape exLine [1, 2, 3] ∧ HasShape exFaceColors [1, 3] ∧ 1 ≤ 357913942 ∧
    ∃ t, draw_lines exLine (some exFaceColors) = some t ∧
      t = beginPrim GL_LINES ::
          (List.range 1).flatMap (fun k =>
            [color3 (exFaceColors.row k), vertex (exLine.elem k 0),
             vertex (exLine.elem k 1)]) ++ [endPrim] ∧
      countColor t = 1 ∧ countVertex t = 2 * 1 :=
  ⟨by decide, by decide, by decide,
    draw_lines_segment_colors 1 exLine exFaceColors (by decide) (by decide) (by decide)⟩

/-- C9 (counterexample): for `N = 357913942` segments with per-vertex colors of
shape `[N,2,3]`, the loop bound `2*3*nels` overflows `int` and `draw_lines` has
no defined trace. -/
theorem draw_lines_vertex_colors_overflow :
    HasShape (zeros [357913942, 2, 3]) [357913942, 2, 3] ∧
    draw_lines (zeros [357913942, 2, 3]) (some (zeros [357913942, 2, 3])) = none :=
  ⟨hasShape_zeros _,
    lines_flat_overflow _ _ 357913942 [2, 3] rfl (Or.inr rfl) (by norm_num) (by norm_num)⟩

/-- C9 (amended): for `6N ≤ 2147483647`, with coords and per-vertex colors both
of shape `[N,2,3]`, `draw_lines` emits, for each segment `k` and endpoint
`v = 0, 1` in order, `color3 colors[k][v]` immediately followed by
`vertex coords[k][v]`: `2N` color calls and `2N` vertex calls, strictly
alternating. -/
theorem draw_lines_vertex_colors (N : Nat) (x c : PyArray F32)
    (hx : HasShape x [N, 2, 3]) (hc : HasShape c [N, 2, 3]) (hN : 6 * N ≤ 2147483647) :
    ∃ t, draw_lines x (some c) = some t ∧
      t = beginPrim GL_LINES ::
          (List.range N).flatMap (fun k =>
            [color3 (c.elem k 0), vertex (x.elem k 0),
             color3 (c.elem k 1), vertex (x.elem k 1)]) ++ [endPrim] ∧
      countColor t = 2 * N ∧ countVertex t = 2 * N := by
  refine ⟨_, lines_trace_vertex N x c hx hc hN, rfl, ?_, ?_⟩
  · exact countP_wrap GLCall.isColor GL_LINES _ 2 N rfl rfl (fun _ => rfl)
  · exact countP_wrap GLCall.isVertex GL_LINES _ 2 N rfl rfl (fun _ => rfl)

/-- Witness of C9 on one segment. -/
theorem draw_lines_vertex_colors_witness :
    HasShape exLine [1, 2, 3] ∧ HasShape exEndColors [1, 2, 3] ∧ 6 * 1 ≤ 2147483647 ∧
    ∃ t, draw_lines exLine (some exEndColors) = some t ∧
      t = beginPrim GL_LINES ::
          (List.range 1).flatMap (fun k =>
            [color3 (exEndColors.elem k 0), vertex (exLine.elem k 0),
             color3 (exEndColors.elem k 1), vertex (exLine.elem k 1)]) ++ [endPrim] ∧
      countColor t = 2 * 1 ∧ countVertex t = 2 * 1 :=
  ⟨by decide, by decide, by decide,
    draw_lines_vertex_colors 1 exLine exEndColors (by decide) (by decide) (by decide)⟩

/-- C10 (counterexample): for `N = 357913942` segments without color, the loop
bound `2*3*nels` overflows `int` and `draw_lines` has no defined trace. -/
theorem draw_lines_coords_only_overflow :
    HasShape (zeros [357913942, 2, 3]) [357913942, 2, 3] ∧
    draw_lines (zeros [357913942, 2, 3]) none = none :=
  ⟨hasShape_zeros _,
    lines_flat_overflow _ none 357913942 [2, 3] rfl (Or.inl rfl) (by norm_num) (by norm_num)⟩

/-- C10 (amended): for `6N ≤ 2147483647`, with coords of shape `[N,2,3]` and no
color (rank 0), `draw_lines` emits `begin(LINES)`, then one vertex call for each
of the `2N` points of coords in buffer order, then `end`, and no color call. -/
theorem draw_lines_coords_only (N : Nat) (x : PyArray F32) (c : Option (PyArray F32))
    (hx : HasShape x [N, 2, 3]) (hc : ndimOr0 c = 0) (hN : 6 * N ≤ 2147483647) :
    ∃ t, draw_lines x c = some t ∧
      t = beginPrim GL_LINES :: (points x.data).map vertex ++ [endPrim] ∧
      (points x.data).length = 2 * N ∧
      countVertex t = 2 * N ∧ countColor t = 0 := by
  obtain ⟨hpts, hpl⟩ := line_points N x hx
  refine ⟨_, (lines_trace_plain N x c hx hc hN).trans (by rw [hpts]), rfl, hpl, ?_, ?_⟩
  · simp [countVertex, List.countP_cons, List.countP_append, GLCall.isVertex,
      List.countP_map, Function.comp_def, hpl]
  · simp [countColor, List.countP_cons, List.countP_append, GLCall.isColor,
      List.countP_map, Function.comp_def]

/-- Witness of C10 on one segment. -/
theorem draw_lines_coords_only_witness :
    HasShape exLine [1, 2, 3] ∧ ndimOr0 none = 0 ∧ 6 * 1 ≤ 2147483647 ∧
    ∃ t, draw_lines exLine none = some t ∧
      t = beginPrim GL_LINES :: (points exLine.data).map vertex ++ [endPrim] ∧
      (points exLine.data).length = 2 * 1 ∧
      countVertex t = 2 * 1 ∧ countColor t = 0 :=
  ⟨by decide, by decide, by decide,
    draw_lines_coords_only 1 exLine none (by decide) (by decide) (by decide)⟩

/-! ## Claims about the batch structure -/

/-- C11: whatever the arguments, the trace emitted by each of `draw_lines`,
`draw_triangles` and `draw_triangle_elements` holds exactly one begin call and
exactly one end call; the begin call is first, the end call is last, and the
kind is `GL_LINES` for `draw_lines` and `GL_TRIANGLES` for the two triangle
emitters. -/
theorem emitters_one_batch :
    (∀ (x : PyArray F32) (c : Option (PyArray F32)) (t : Trace),
        draw_lines x c = some t → OneBatch GL_LINES t)
    ∧ (∀ (x : PyArray F32) (n c : Option (PyArray F32)) (alpha : F32) (t : Trace),
        draw_triangles x n c alpha = some t → OneBatch GL_TRIANGLES t)
    ∧ (∀ (x : PyArray F32) (e : PyArray Int) (n c : Option (PyArray F32)) (t : Trace),
        draw_triangle_elements x e n c = some t → OneBatch GL_TRIANGLES t) := by
  refine ⟨?_, ?_, ?_⟩
  · intro x c t h
    obtain ⟨body, rfl, hb⟩ := draw_lines_calls
      (fun call => call.isBegin = false ∧ call.isEnd = false)
      (fun _ => ⟨rfl, rfl⟩) (fun _ => ⟨rfl, rfl⟩) x c t h
    exact oneBatch_of_body GL_LINES body hb
  · intro x n c alpha t h
    obtain ⟨body, rfl, hb⟩ := draw_triangles_calls
      (fun call => call.isBegin = false ∧ call.isEnd = false)
      (fun _ => ⟨rfl, rfl⟩) (fun _ => ⟨rfl, rfl⟩) (fun _ => ⟨rfl, rfl⟩)
      (fun _ _ _ _ => ⟨rfl, rfl⟩) x n c alpha t h
    exact oneBatch_of_body GL_TRIANGLES body hb
  · intro x e n c t h
    obtain ⟨body, rfl, hb⟩ := draw_triangle_elements_calls
      (fun call => call.isBegin = false ∧ call.isEnd = false)
      (fun _ => ⟨rfl, rfl⟩) x e n c t h
    exact oneBatch_of_body GL_TRIANGLES body hb

/-- Witness of C11 on one segment, one triangle and the indexed example. -/
theorem emitters_one_batch_witness :
    (draw_lines exLine none =
        some [beginPrim GL_LINES, vertex (F32.zero, F32.zero, F32.zero),
              vertex (F32.one, F32.zero, F32.zero), endPrim]
      ∧ OneBatch GL_LINES
          [beginPrim GL_LINES, vertex (F32.zero, F32.zero, F32.zero),
           vertex (F32.one, F32.zero, F32.zero), endPrim])
    ∧ (draw_triangles exTriangle none none F32.one =
        some [beginPrim GL_TRIANGLES, vertex (F32.zero, F32.zero, F32.zero),
              vertex (F32.one, F32.zero, F32.zero), vertex (F32.zero, F32.one, F32.zero),
              endPrim]
      ∧ OneBatch GL_TRIANGLES
          [beginPrim GL_TRIANGLES, vertex (F32.zero, F32.zero, F32.zero),
           vertex (F32.one, F32.zero, F32.zero), vertex (F32.zero, F32.one, F32.zero),
           endPrim])
    ∧ (draw_triangle_elements exVertices exIndices none none =
        some [beginPrim GL_TRIANGLES, vertex (F32.zero, F32.zero, F32.zero),
              vertex (F32.one, F32.zero, F32.zero), endPrim]
      ∧ OneBatch GL_TRIANGLES
          [beginPrim GL_TRIANGLES, vertex (F32.zero, F32.zero, F32.zero),
           vertex (F32.one, F32.zero, F32.zero), endPrim]) :=
  ⟨⟨by decide, emitters_one_batch.1 exLine none _ (by decide)⟩,
   ⟨by decide, emitters_one_batch.2.1 exTriangle none none F32.one _ (by decide)⟩,
   ⟨by decide, emitters_one_batch.2.2 exVertices exIndices none none _ (by decide)⟩⟩

/-! ## Claims about `draw_triangle_elements` -/

/-- C12: the trace of `draw_triangle_elements` is the same for any two choices
of the normals and colors arguments, and it holds no normal call and no color
call: it depends on the vertex and index buffers only. -/
theorem draw_triangle_elements_coords_only (x : PyArray F32) (e : PyArray Int)
    (n c n' c' : Option (PyArray F32)) :
    draw_triangle_elements x e n c = draw_triangle_elements x e n' c'
    ∧ (∀ t, draw_triangle_elements x e n c = some t →
        countNormal t = 0 ∧ countColor t = 0) := by
  refine ⟨rfl, ?_⟩
  intro t h
  obtain ⟨body, rfl, hb⟩ := draw_triangle_elements_calls
    (fun call => call.isNormal = false ∧ call.isColor = false)
    (fun _ => ⟨rfl, rfl⟩) x e n c t h
  have hn : body.countP GLCall.isNormal = 0 :=
    List.countP_eq_zero.2 fun call hc => by simp [(hb call hc).1]
  have hc : body.countP GLCall.isColor = 0 :=
    List.countP_eq_zero.2 fun call hc => by simp [(hb call hc).2]
  constructor
  · simp [countNormal, List.countP_cons, List.countP_append, hn, GLCall.isNormal]
  · simp [countColor, List.countP_cons, List.countP_append, hc, GLCall.isColor]

/-- Witness of C12 on the indexed example, with and without normals and
colors. -/
theorem draw_triangle_elements_coords_only_witness :
    draw_triangle_elements exVertices exIndices (some exNormals) (some exVertexColors)
        = draw_triangle_elements exVertices exIndices none none
    ∧ countNormal [beginPrim GL_TRIANGLES, vertex (F32.zero, F32.zero, F32.zero),
        vertex (F32.one, F32.zero, F32.zero), endPrim] = 0
    ∧ countColor [beginPrim GL_TRIANGLES, vertex (F32.zero, F32.zero, F32.zero),
        vertex (F32.one, F32.zero, F32.zero), endPrim] = 0 :=
  ⟨(draw_triangle_elements_coords_only exVertices exIndices
      (some exNormals) (some exVertexColors) none none).1,
   (draw_triangle_elements_coords_only exVertices exIndices
      (some exNormals) (some exVertexColors) none none).2 _ (by decide)⟩

/-! ## Claims about reads of `draw_triangle_elements` -/

/-- C13 (counterexample): for a vertex buffer of `M = 715827884` points and the
single index triplet `[715827883, 0, 0]`, whose indices all lie in `[0, M)`, the
`int` product `3*e[i]` overflows and `draw_triangle_elements` has no defined
trace. -/
theorem draw_triangle_elements_in_bounds_overflow :
    HasShape (zeros [715827884, 3]) [715827884, 3] ∧
    HasShape (⟨[1, 3], [715827883, 0, 0]⟩ : PyArray Int) [1, 3] ∧
    (∀ i ∈ [(715827883 : Int), 0, 0], 0 ≤ i ∧ i < ((715827884 : Nat) : Int)) ∧
    draw_triangle_elements (zeros [715827884, 3]) ⟨[1, 3], [715827883, 0, 0]⟩ none none
      = none :=
  ⟨hasShape_zeros _, by decide, by decide,
    elements_overflow _ _ none none 715827884 [3] 715827883 0 0 rfl rfl (by norm_num)⟩

/-- C13 (amended): when the vertex buffer has shape `[M,3]`, the index buffer
has shape `[N,3]` with `3N ≤ 2147483647`, and every index `e` satisfies
`0 ≤ e < M` and `3e ≤ 2147483647`, `draw_triangle_elements` produces a trace (no
read falls outside a buffer): each index it reads is inside the index buffer,
and the three floats at `3e, 3e+1, 3e+2` of each vertex it emits are inside the
vertex buffer. -/
theorem draw_triangle_elements_in_bounds (M N : Nat) (x : PyArray F32) (e : PyArray Int)
    (n c : Option (PyArray F32)) (hx : HasShape x [M, 3]) (he : HasShape e [N, 3])
    (hN : 3 * N ≤ 2147483647)
    (hidx : ∀ i ∈ e.data, 0 ≤ i ∧ i < (M : Int) ∧ 3 * i ≤ 2147483647) :
    (∃ t, draw_triangle_elements x e n c = some t)
    ∧ (∀ k, k < N → 3 * k < e.data.length ∧
        ∃ idx v, e.data[3 * k]? = some idx ∧ 0 ≤ 3 * idx ∧
          3 * idx + 2 < (x.data.length : Int) ∧
          ((FloatPtr.mk x.data 0).add (3 * idx)).read3 = some v) := by
  obtain ⟨hxd, hxl⟩ := shape_N3 M x hx
  have hel3 : e.data.length = 3 * N := by
    have := he.2
    simp at this; omega
  have hfirst : ∀ k, k < N → 3 * k < e.data.length ∧
      e.data[3 * k]? = some (e.data.getD (3 * k) 0) ∧
      0 ≤ e.data.getD (3 * k) 0 ∧ e.data.getD (3 * k) 0 < M ∧
      3 * e.data.getD (3 * k) 0 ≤ 2147483647 := by
    intro k hk
    have hlt : 3 * k < e.data.length := by omega
    have hget : e.data[3 * k]? = some (e.data.getD (3 * k) 0) := by
      simp [List.getD, List.getElem?_eq_getElem hlt]
    have hmem : e.data.getD (3 * k) 0 ∈ e.data := by
      simp [List.getD, List.getElem?_eq_getElem hlt]
    exact ⟨hlt, hget, hidx _ hmem⟩
  refine ⟨⟨_, elements_trace M N x e n c hx he hN fun k hk => (hfirst k hk).2.2⟩, ?_⟩
  intro k hk
  obtain ⟨hlt, hget, h0, h1, _⟩ := hfirst k hk
  refine ⟨hlt, _, _, hget, by omega, by omega,
    read3_add x.data _ (e.data.getD (3 * k) 0).toNat (by omega) (by omega)⟩

/-- Witness of C13 on the indexed example. -/
theorem draw_triangle_elements_in_bounds_witness :
    HasShape exVertices [4, 3] ∧ HasShape exIndices [2, 3] ∧ 3 * 2 ≤ 2147483647 ∧
    (∀ i ∈ exIndices.data, 0 ≤ i ∧ i < ((4 : Nat) : Int) ∧ 3 * i ≤ 2147483647) ∧
    ((∃ t, draw_triangle_elements exVertices exIndices none none = some t)
    ∧ (∀ k, k < 2 → 3 * k < exIndices.data.length ∧
        ∃ idx v, exIndices.data[3 * k]? = some idx ∧ 0 ≤ 3 * idx ∧
          3 * idx + 2 < (exVertices.data.length : Int) ∧
          ((FloatPtr.mk exVertices.data 0).add (3 * idx)).read3 = some v)) :=
  ⟨by decide, by decide, by decide, by decide,
    draw_triangle_elements_in_bounds 4 2 exVertices exIndices none none
      (by decide) (by decide) (by decide) (by decide)⟩

/-! ## Claims about buffer reads and degenerate input -/

/-- C14 (counterexample): buffers of the documented shapes for which no trace is
defined because a loop bound overflows `int`: `N = 357913942` segments for
`draw_lines` and `N = 238609295` triangles for `draw_triangles`. -/
theorem documented_shapes_overflow :
    (HasShape (zeros [357913942, 2, 3]) [357913942, 2, 3] ∧ ColorsShape none 357913942 2 ∧
      draw_lines (zeros [357913942, 2, 3]) none = none)
    ∧ (HasShape (zeros [238609295, 3, 3]) [238609295, 3, 3] ∧
      NormalsShape none 238609295 ∧ ColorsShape none 238609295 3 ∧
      draw_triangles (zeros [238609295, 3, 3]) none none F32.half = none) :=
  ⟨⟨hasShape_zeros _, trivial,
      lines_flat_overflow _ none 357913942 [2, 3] rfl (Or.inl rfl) (by norm_num)
        (by norm_num)⟩,
   ⟨hasShape_zeros _, trivial, trivial,
      tri_flat_overflow _ none _ 238609295 [3, 3] rfl (Or.inl rfl) (by norm_num)
        (by norm_num)⟩⟩

/-- C14 (amended): for buffers of the documented shapes (`draw_lines`: coords
`[N,2,3]` with `6N ≤ 2147483647`, colors absent, `[N,3]` or `[N,2,3]`;
`draw_triangles`: coords `[N,3,3]` with `9N ≤ 2147483647`, normals absent or
`[N,3]`, colors absent, `[N,3]` or `[N,3,3]`), `draw_lines` and `draw_triangles`
produce a trace: no read of three floats falls outside its buffer. -/
theorem documented_shapes_in_bounds (N : Nat) :
    (∀ (x : PyArray F32) (c : Option (PyArray F32)),
        HasShape x [N, 2, 3] → ColorsShape c N 2 → 6 * N ≤ 2147483647 →
        ∃ t, draw_lines x c = some t)
    ∧ (∀ (x : PyArray F32) (n c : Option (PyArray F32)) (alpha : F32),
        HasShape x [N, 3, 3] → NormalsShape n N → ColorsShape c N 3 →
        9 * N ≤ 2147483647 → ∃ t, draw_triangles x n c alpha = some t) := by
  constructor
  · intro x c hx hc hN
    cases c with
    | none => exact ⟨_, lines_trace_plain N x none hx rfl hN⟩
    | some a =>
      rcases hc with h0 | h2 | h3
      · exact ⟨_, lines_trace_plain N x (some a) hx (ndimOr0_rank0 a h0) hN⟩
      · exact ⟨_, lines_trace_face N x a hx h2 (by omega)⟩
      · exact ⟨_, lines_trace_vertex N x a hx h3 hN⟩
  · intro x n c alpha hx hn hc hN
    cases n with
    | none =>
      cases c with
      | none => exact ⟨_, tri_trace_plain N x none alpha hx rfl hN⟩
      | some a =>
        rcases hc with h0 | h2 | h3
        · exact ⟨_, tri_trace_plain N x (some a) alpha hx (ndimOr0_rank0 a h0) hN⟩
        · exact ⟨_, tri_trace_face N x a alpha hx h2 (by omega)⟩
        · exact ⟨_, tri_trace_vertex N x a alpha hx h3 hN⟩
    | some m =>
      cases c with
      | none => exact ⟨_, tri_trace_normals N x m none alpha hx hn rfl (by omega)⟩
      | some a =>
        rcases hc with h0 | h2 | h3
        · exact ⟨_, tri_trace_normals N x m (some a) alpha hx hn (ndimOr0_rank0 a h0)
            (by omega)⟩
        · exact ⟨_, tri_trace_face_normals N x m a alpha hx hn h2 (by omega)⟩
        · exact ⟨_, tri_trace_vertex_normals N x m a alpha hx hn h3 (by omega)⟩

/-- Witness of C14 on one segment with endpoint colors and one triangle with
normals and face colors. -/
theorem documented_shapes_in_bounds_witness :
    (HasShape exLine [1, 2, 3] ∧ ColorsShape (some exEndColors) 1 2 ∧ 6 * 1 ≤ 2147483647 ∧
      ∃ t, draw_lines exLine (some exEndColors) = some t)
    ∧ (HasShape exTriangle [1, 3, 3] ∧ NormalsShape (some exNormals) 1 ∧
      ColorsShape (some exFaceColors) 1 3 ∧ 9 * 1 ≤ 2147483647 ∧
      ∃ t, draw_triangles exTriangle (some exNormals) (some exFaceColors) F32.half = some t) :=
  ⟨⟨by decide, Or.inr (Or.inr (by decide)), by decide,
      (documented_shapes_in_bounds 1).1 exLine (some exEndColors)
        (by decide) (Or.inr (Or.inr (by decide))) (by decide)⟩,
   ⟨by decide, (by decide : HasShape exNormals [1, 3]), Or.inr (Or.inl (by decide)),
      by decide,
      (documented_shapes_in_bounds 1).2 exTriangle (some exNormals) (some exFaceColors)
        F32.half (by decide) (by decide : HasShape exNormals [1, 3])
        (Or.inr (Or.inl (by decide))) (by decide)⟩⟩

/-- C15: for `N = 0` every emitter, in every dispatch branch, emits exactly
`begin, end`: whatever the color array (any rank), the normals, `alpha`, the
vertex buffer, and whatever the buffers hold (even nothing), so no buffer is
read. -/
theorem zero_primitives_empty_batch :
    (∀ (x : PyArray F32) (rest : List Nat) (c : Option (PyArray F32)),
        x.dims = 0 :: rest → draw_lines x c = some [beginPrim GL_LINES, endPrim])
    ∧ (∀ (x : PyArray F32) (rest : List Nat) (n c : Option (PyArray F32)) (alpha : F32),
        x.dims = 0 :: rest →
        draw_triangles x n c alpha = some [beginPrim GL_TRIANGLES, endPrim])
    ∧ (∀ (x : PyArray F32) (e : PyArray Int) (M : Nat) (rest rest' : List Nat)
        (n c : Option (PyArray F32)),
        x.dims = M :: rest → e.dims = 0 :: rest' →
        draw_triangle_elements x e n c = some [beginPrim GL_TRIANGLES, endPrim]) := by
  refine ⟨?_, ?_, ?_⟩
  · intro x rest c hx
    simp only [draw_lines, hx, List.getElem?_cons_zero, Option.bind_eq_bind, Option.some_bind,
      Option.pure_def, toInt_zero, int_mul_zero, cFor_zero]
    split_ifs <;> rfl
  · intro x rest n c alpha hx
    simp only [draw_triangles, hx, List.getElem?_cons_zero, Option.bind_eq_bind,
      Option.some_bind, Option.pure_def, toInt_zero, int_mul_zero, cFor_zero]
    split_ifs <;> rfl
  · intro x e M rest rest' n c hx he
    simp only [draw_triangle_elements, hx, he, List.getElem?_cons_zero, Option.bind_eq_bind,
      Option.some_bind, Option.pure_def, toInt_zero, int_mul_zero, cFor_zero]
    rfl

/-- Witness of C15 on empty arrays, with a rank-1 color array and normals. -/
theorem zero_primitives_empty_batch_witness :
    draw_lines exNoLines (some exUniformColor) = some [beginPrim GL_LINES, endPrim]
    ∧ draw_triangles exNoTriangles (some exNormals) (some exVertexColors) F32.half
        = some [beginPrim GL_TRIANGLES, endPrim]
    ∧ draw_triangle_elements exVertices exNoIndices none none
        = some [beginPrim GL_TRIANGLES, endPrim] :=
  ⟨zero_primitives_empty_batch.1 exNoLines [2, 3] (some exUniformColor) rfl,
   zero_primitives_empty_batch.2.1 exNoTriangles [3, 3] (some exNormals)
     (some exVertexColors) F32.half rfl,
   zero_primitives_empty_batch.2.2 exVertices exNoIndices 4 [3] [3] none none rfl rfl⟩

/-! ## Claims about the dispatch of `draw_triangles` and `draw_lines` -/

/-- C16 (counterexample): for one triangle with per-vertex colors and no
normals, the calls emitted between begin and end are not `9 * 1` in number; and
for `N = 238609295` such triangles the loop bound `9*nels` overflows `int`, so
no trace is defined. -/
theorem draw_triangles_vertex_colors_not_nine :
    (¬ ∃ body, draw_triangles exTriangle none (some exVertexColors) F32.one
        = some (beginPrim GL_TRIANGLES :: body ++ [endPrim]) ∧ body.length = 9 * 1)
    ∧ (HasShape (zeros [238609295, 3, 3]) [238609295, 3, 3] ∧
      draw_triangles (zeros [238609295, 3, 3]) none (some (zeros [238609295, 3, 3])) F32.one
        = none) := by
  refine ⟨?_, hasShape_zeros _,
    tri_flat_overflow _ _ _ 238609295 [3, 3] rfl (Or.inr rfl) (by norm_num) (by norm_num)⟩
  rintro ⟨body, h, hl⟩
  have he : draw_triangles exTriangle none (some exVertexColors) F32.one =
      some [beginPrim GL_TRIANGLES,
        color3 (F32.one, F32.zero, F32.zero), vertex (F32.zero, F32.zero, F32.zero),
        color3 (F32.zero, F32.one, F32.zero), vertex (F32.one, F32.zero, F32.zero),
        color3 (F32.zero, F32.zero, F32.one), vertex (F32.zero, F32.one, F32.zero),
        endPrim] := by decide
  rw [he] at h
  have hlen := congrArg List.length (Option.some.inj h)
  simp at hlen
  omega

/-- C16 (amended): for `9N ≤ 2147483647`, with normals absent and per-vertex
colors of shape `[N,3,3]`, `draw_triangles` emits for each triangle, and for
each of its three vertices in order, one color call for that vertex then its
vertex call: 6 backend calls per triangle, `6N` calls between begin and end
(`3N` color calls and `3N` vertex calls). -/
theorem draw_triangles_vertex_colors (N : Nat) (x c : PyArray F32) (alpha : F32)
    (hx : HasShape x [N, 3, 3]) (hc : HasShape c [N, 3, 3]) (hN : 9 * N ≤ 2147483647) :
    ∃ body, draw_triangles x none (some c) alpha
        = some (beginPrim GL_TRIANGLES :: body ++ [endPrim]) ∧
      body = (List.range N).flatMap (fun k =>
        [color3 (c.elem k 0), vertex (x.elem k 0),
         color3 (c.elem k 1), vertex (x.elem k 1),
         color3 (c.elem k 2), vertex (x.elem k 2)]) ∧
      body.length = 6 * N ∧ countColor body = 3 * N ∧ countVertex body = 3 * N := by
  refine ⟨_, tri_trace_vertex N x c alpha hx hc hN, rfl, ?_, ?_, ?_⟩
  · have := countP_flatMap_const (fun _ => true) (fun k =>
        [color3 (c.elem k 0), vertex (x.elem k 0),
         color3 (c.elem k 1), vertex (x.elem k 1),
         color3 (c.elem k 2), vertex (x.elem k 2)]) 6 (List.range N) (fun _ => rfl)
    simpa using this
  · have := countP_flatMap_const GLCall.isColor (fun k =>
        [color3 (c.elem k 0), vertex (x.elem k 0),
         color3 (c.elem k 1), vertex (x.elem k 1),
         color3 (c.elem k 2), vertex (x.elem k 2)]) 3 (List.range N) (fun _ => rfl)
    simpa [countColor] using this
  · have := countP_flatMap_const GLCall.isVertex (fun k =>
        [color3 (c.elem k 0), vertex (x.elem k 0),
         color3 (c.elem k 1), vertex (x.elem k 1),
         color3 (c.elem k 2), vertex (x.elem k 2)]) 3 (List.range N) (fun _ => rfl)
    simpa [countVertex] using this

/-- Witness of the amended C16 on one triangle. -/
theorem draw_triangles_vertex_colors_witness :
    HasShape exTriangle [1, 3, 3] ∧ HasShape exVertexColors [1, 3, 3] ∧
      9 * 1 ≤ 2147483647 ∧
    ∃ body, draw_triangles exTriangle none (some exVertexColors) F32.half
        = some (beginPrim GL_TRIANGLES :: body ++ [endPrim]) ∧
      body = (List.range 1).flatMap (fun k =>
        [color3 (exVertexColors.elem k 0), vertex (exTriangle.elem k 0),
         color3 (exVertexColors.elem k 1), vertex (exTriangle.elem k 1),
         color3 (exVertexColors.elem k 2), vertex (exTriangle.elem k 2)]) ∧
      body.length = 6 * 1 ∧ countColor body = 3 * 1 ∧ countVertex body = 3 * 1 :=
  ⟨by decide, by decide, by decide,
    draw_triangles_vertex_colors 1 exTriangle exVertexColors F32.half
      (by decide) (by decide) (by decide)⟩

/-- C17 (counterexample): for `N = 238609295` triangles with normals of shape
`[N,3]` and no color, `draw_triangles` with the normals has a trace, while
without normals the loop bound `9*nels` overflows `int` and no trace is defined:
the second is not the first with its normal calls deleted. -/
theorem draw_triangles_without_normals_overflow :
    HasShape (zeros [238609295, 3, 3]) [238609295, 3, 3] ∧
    HasShape (zeros [238609295, 3]) [238609295, 3] ∧
    (∃ t, draw_triangles (zeros [238609295, 3, 3]) (some (zeros [238609295, 3])) none
        F32.one = some t) ∧
    draw_triangles (zeros [238609295, 3, 3]) none none F32.one = none :=
  ⟨hasShape_zeros _, hasShape_zeros _,
    ⟨_, tri_trace_normals 238609295 _ _ none F32.one (hasShape_zeros _) (hasShape_zeros _) rfl
      (by norm_num)⟩,
    tri_flat_overflow _ none _ 238609295 [3, 3] rfl (Or.inl rfl) (by norm_num) (by norm_num)⟩

/-- C17 (amended): for `9N ≤ 2147483647`, coords of shape `[N,3,3]`, normals of
shape `[N,3]`, a color argument of rank 0, 2 or 3 of the documented shape and
any `alpha`, deleting the normal calls from the trace of `draw_triangles` with
the normals yields exactly its trace without normals. -/
theorem draw_triangles_without_normals (N : Nat) (x n : PyArray F32)
    (c : Option (PyArray F32)) (alpha : F32)
    (hx : HasShape x [N, 3, 3]) (hn : HasShape n [N, 3]) (hc : ColorsShape c N 3)
    (hN : 9 * N ≤ 2147483647) :
    ∃ t, draw_triangles x (some n) c alpha = some t ∧
      draw_triangles x none c alpha = some (t.filter fun call => !call.isNormal) := by
  have hN' : N ≤ 238609295 := by omega
  have plain : ∀ c : Option (PyArray F32), ndimOr0 c = 0 →
      ∃ t, draw_triangles x (some n) c alpha = some t ∧
        draw_triangles x none c alpha = some (t.filter fun call => !call.isNormal) := by
    intro c h0
    refine ⟨_, tri_trace_normals N x n c alpha hx hn h0 hN', ?_⟩
    rw [tri_trace_plain N x c alpha hx h0 hN,
      filter_wrap_keep (fun call => !call.isNormal) GL_TRIANGLES
        (fun k => [normal (n.row k),
          vertex (x.elem k 0), vertex (x.elem k 1), vertex (x.elem k 2)])
        (fun k => [vertex (x.elem k 0), vertex (x.elem k 1), vertex (x.elem k 2)])
        N rfl rfl (fun _ => rfl)]
  cases c with
  | none => exact plain none rfl
  | some a =>
    rcases hc with h0 | h2 | h3
    · exact plain (some a) (ndimOr0_rank0 a h0)
    · refine ⟨_, tri_trace_face_normals N x n a alpha hx hn h2 hN', ?_⟩
      rw [tri_trace_face N x a alpha hx h2 hN',
        filter_wrap_keep (fun call => !call.isNormal) GL_TRIANGLES
          (fun k => [colorCall (a.row k) alpha, normal (n.row k),
            vertex (x.elem k 0), vertex (x.elem k 1), vertex (x.elem k 2)])
          (fun k => [colorCall (a.row k) alpha,
            vertex (x.elem k 0), vertex (x.elem k 1), vertex (x.elem k 2)])
          N rfl rfl
          (fun k => by
            have hv : ∀ v, GLCall.isNormal (vertex v) = false := fun _ => rfl
            have hm : ∀ v, GLCall.isNormal (normal v) = true := fun _ => rfl
            simp [List.filter_cons, isNormal_colorCall (a.row k) alpha, hv, hm])]
    · refine ⟨_, tri_trace_vertex_normals N x n a alpha hx hn h3 hN', ?_⟩
      rw [tri_trace_vertex N x a alpha hx h3 hN,
        filter_wrap_keep (fun call => !call.isNormal) GL_TRIANGLES
          (fun k => [normal (n.row k),
            color3 (a.elem k 0), vertex (x.elem k 0),
            color3 (a.elem k 1), vertex (x.elem k 1),
            color3 (a.elem k 2), vertex (x.elem k 2)])
          (fun k => [color3 (a.elem k 0), vertex (x.elem k 0),
            color3 (a.elem k 1), vertex (x.elem k 1),
            color3 (a.elem k 2), vertex (x.elem k 2)])
          N rfl rfl (fun _ => rfl)]

/-- Witness of C17 on one triangle with face colors and `alpha = 0.5`. -/
theorem draw_triangles_without_normals_witness :
    HasShape exTriangle [1, 3, 3] ∧ HasShape exNormals [1, 3] ∧
      ColorsShape (some exFaceColors) 1 3 ∧ 9 * 1 ≤ 2147483647 ∧
    ∃ t, draw_triangles exTriangle (some exNormals) (some exFaceColors) F32.half = some t ∧
      draw_triangles exTriangle none (some exFaceColors) F32.half
        = some (t.filter fun call => !call.isNormal) :=
  ⟨by decide, by decide, Or.inr (Or.inl (by decide)), by decide,
    draw_triangles_without_normals 1 exTriangle exNormals (some exFaceColors) F32.half
      (by decide) (by decide) (Or.inr (Or.inl (by decide))) (by decide)⟩

/-- C18 (counterexample): for `N = 238609295` triangles with per-vertex colors,
and for `N = 357913942` segments with per-vertex colors, a loop bound overflows
`int` and no trace is defined, so the vertex calls are not the points of
coords. -/
theorem vertex_calls_are_coords_overflow :
    (HasShape (zeros [238609295, 3, 3]) [238609295, 3, 3] ∧
      NormalsShape none 238609295 ∧ ColorsShape (some (zeros [238609295, 3, 3])) 238609295 3 ∧
      draw_triangles (zeros [238609295, 3, 3]) none (some (zeros [238609295, 3, 3])) F32.half
        = none)
    ∧ (HasShape (zeros [357913942, 2, 3]) [357913942, 2, 3] ∧
      ColorsShape (some (zeros [357913942, 2, 3])) 357913942 2 ∧
      draw_lines (zeros [357913942, 2, 3]) (some (zeros [357913942, 2, 3])) = none) :=
  ⟨⟨hasShape_zeros _, trivial, Or.inr (Or.inr (hasShape_zeros _)),
      tri_flat_overflow _ _ _ 238609295 [3, 3] rfl (Or.inr rfl) (by norm_num) (by norm_num)⟩,
   ⟨hasShape_zeros _, Or.inr (Or.inr (hasShape_zeros _)),
      lines_flat_overflow _ _ 357913942 [2, 3] rfl (Or.inr rfl) (by norm_num)
        (by norm_num)⟩⟩

/-- C18 (amended): for buffers of the documented shapes and a color rank of 0, 2
or 3, the vertex calls of the trace, in order, are the points of coords in
buffer order: `3N` points for `draw_triangles` when `9N ≤ 2147483647`, and `2N`
points for `draw_lines` when `6N ≤ 2147483647`, whatever normals, colors and
`alpha` are supplied. -/
theorem vertex_calls_are_coords (N : Nat) (x y : PyArray F32)
    (n c d : Option (PyArray F32)) (alpha : F32)
    (hx : HasShape x [N, 3, 3]) (hn : NormalsShape n N) (hc : ColorsShape c N 3)
    (hy : HasShape y [N, 2, 3]) (hd : ColorsShape d N 2) :
    (9 * N ≤ 2147483647 → ∃ t, draw_triangles x n c alpha = some t ∧
      t.filter GLCall.isVertex = (points x.data).map vertex ∧
      (points x.data).length = 3 * N)
    ∧ (6 * N ≤ 2147483647 → ∃ t, draw_lines y d = some t ∧
      t.filter GLCall.isVertex = (points y.data).map vertex ∧
      (points y.data).length = 2 * N) := by
  have hcc : ∀ (rgb : Vec3) (l : Trace),
      (colorCall rgb alpha :: l).filter GLCall.isVertex = l.filter GLCall.isVertex := by
    intro rgb l
    simp [List.filter_cons, isVertex_colorCall rgb alpha]
  have hpx := (triangle_points N x hx).2
  have hpy := (line_points N y hy).2
  constructor
  · intro hN
    have hN' : N ≤ 238609295 := by omega
    cases n with
    | none =>
      cases c with
      | none =>
        exact ⟨_, tri_trace_plain N x none alpha hx rfl hN,
          tri_vertices_of_trace N x hx _ (fun _ => rfl), hpx⟩
      | some a =>
        rcases hc with h0 | h2 | h3
        · exact ⟨_, tri_trace_plain N x (some a) alpha hx (ndimOr0_rank0 a h0) hN,
            tri_vertices_of_trace N x hx _ (fun _ => rfl), hpx⟩
        · exact ⟨_, tri_trace_face N x a alpha hx h2 hN',
            tri_vertices_of_trace N x hx _ (fun k => by rw [hcc]; rfl), hpx⟩
        · exact ⟨_, tri_trace_vertex N x a alpha hx h3 hN,
            tri_vertices_of_trace N x hx _ (fun _ => rfl), hpx⟩
    | some m =>
      cases c with
      | none =>
        exact ⟨_, tri_trace_normals N x m none alpha hx hn rfl hN',
          tri_vertices_of_trace N x hx _ (fun _ => rfl), hpx⟩
      | some a =>
        rcases hc with h0 | h2 | h3
        · exact ⟨_, tri_trace_normals N x m (some a) alpha hx hn (ndimOr0_rank0 a h0) hN',
            tri_vertices_of_trace N x hx _ (fun _ => rfl), hpx⟩
        · exact ⟨_, tri_trace_face_normals N x m a alpha hx hn h2 hN',
            tri_vertices_of_trace N x hx _ (fun k => by rw [hcc]; rfl), hpx⟩
        · exact ⟨_, tri_trace_vertex_normals N x m a alpha hx hn h3 hN',
            tri_vertices_of_trace N x hx _ (fun _ => rfl), hpx⟩
  · intro hN
    cases d with
    | none =>
      exact ⟨_, lines_trace_plain N y none hy rfl hN,
        line_vertices_of_trace N y hy _ (fun _ => rfl), hpy⟩
    | some a =>
      rcases hd with h0 | h2 | h3
      · exact ⟨_, lines_trace_plain N y (some a) hy (ndimOr0_rank0 a h0) hN,
          line_vertices_of_trace N y hy _ (fun _ => rfl), hpy⟩
      · exact ⟨_, lines_trace_face N y a hy h2 (by omega),
          line_vertices_of_trace N y hy _ (fun _ => rfl), hpy⟩
      · exact ⟨_, lines_trace_vertex N y a hy h3 hN,
          line_vertices_of_trace N y hy _ (fun _ => rfl), hpy⟩

/-- Witness of C18 on one triangle with normals and face colors and one segment
with endpoint colors. -/
theorem vertex_calls_are_coords_witness :
    HasShape exTriangle [1, 3, 3] ∧ NormalsShape (some exNormals) 1 ∧
      ColorsShape (some exFaceColors) 1 3 ∧ HasShape exLine [1, 2, 3] ∧
      ColorsShape (some exEndColors) 1 2 ∧ 9 * 1 ≤ 2147483647 ∧ 6 * 1 ≤ 2147483647 ∧
    ((∃ t, draw_triangles exTriangle (some exNormals) (some exFaceColors) F32.half = some t ∧
      t.filter GLCall.isVertex = (points exTriangle.data).map vertex ∧
      (points exTriangle.data).length = 3 * 1)
    ∧ (∃ t, draw_lines exLine (some exEndColors) = some t ∧
      t.filter GLCall.isVertex = (points exLine.data).map vertex ∧
      (points exLine.data).length = 2 * 1)) :=
  ⟨by decide, (by decide : HasShape exNormals [1, 3]), Or.inr (Or.inl (by decide)),
    by decide, Or.inr (Or.inr (by decide)), by decide, by decide,
    (vertex_calls_are_coords 1 exTriangle exLine (some exNormals) (some exFaceColors)
      (some exEndColors) F32.half (by decide) (by decide : HasShape exNormals [1, 3])
      (Or.inr (Or.inl (by decide))) (by decide) (Or.inr (Or.inr (by decide)))).1 (by decide),
    (vertex_calls_are_coords 1 exTriangle exLine (some exNormals) (some exFaceColors)
      (some exEndColors) F32.half (by decide) (by decide : HasShape exNormals [1, 3])
      (Or.inr (Or.inl (by decide))) (by decide) (Or.inr (Or.inr (by decide)))).2 (by decide)⟩

/-- C19: when the color array has rank 1, or any rank other than 0, 2 and 3,
`draw_lines` and `draw_triangles` emit exactly `begin, end`: no vertex is drawn,
whatever coords, normals and `alpha` are. -/
theorem other_color_ranks_draw_nothing (x : PyArray F32) (N : Nat) (rest : List Nat)
    (c : Option (PyArray F32)) (hx : x.dims = N :: rest)
    (h0 : ndimOr0 c ≠ 0) (h2 : ndimOr0 c ≠ 2) (h3 : ndimOr0 c ≠ 3) :
    draw_lines x c = some [beginPrim GL_LINES, endPrim]
    ∧ ∀ (n : Option (PyArray F32)) (alpha : F32),
        draw_triangles x n c alpha = some [beginPrim GL_TRIANGLES, endPrim] := by
  constructor
  · simp only [draw_lines, hx]
    simp [h0, h2, h3]
  · intro n alpha
    simp only [draw_triangles, hx]
    simp [h0, h2, h3]

/-- Witness of C19 on a uniform color of shape `[3]`. -/
theorem other_color_ranks_draw_nothing_witness :
    exTriangle.dims = 1 :: [3, 3] ∧ ndimOr0 (some exUniformColor) ≠ 0 ∧
      ndimOr0 (some exUniformColor) ≠ 2 ∧ ndimOr0 (some exUniformColor) ≠ 3 ∧
    (draw_lines exTriangle (some exUniformColor) = some [beginPrim GL_LINES, endPrim]
    ∧ ∀ (n : Option (PyArray F32)) (alpha : F32),
        draw_triangles exTriangle n (some exUniformColor) alpha
          = some [beginPrim GL_TRIANGLES, endPrim]) :=
  ⟨rfl, by decide, by decide, by decide,
    other_color_ranks_draw_nothing exTriangle 1 [3, 3] (some exUniformColor) rfl
      (by decide) (by decide) (by decide)⟩

/-- C20 (counterexample): for a vertex buffer of `M = 715827884` points and the
single index triplet `[715827883, 1, 2]`, whose indices all lie in `[0, M)`, the
`int` product `3*e[i]` overflows and `draw_triangle_elements` has no defined
trace, hence no vertex call carrying `vertices[715827883]`. -/
theorem draw_triangle_elements_first_index_overflow :
    HasShape (zeros [715827884, 3]) [715827884, 3] ∧
    HasShape (⟨[1, 3], [715827883, 1, 2]⟩ : PyArray Int) [1, 3] ∧
    (∀ i ∈ [(715827883 : Int), 1, 2], 0 ≤ i ∧ i < ((715827884 : Nat) : Int)) ∧
    draw_triangle_elements (zeros [715827884, 3]) ⟨[1, 3], [715827883, 1, 2]⟩ none none
      = none :=
  ⟨hasShape_zeros _, by decide, by decide,
    elements_overflow _ _ none none 715827884 [3] 715827883 1 2 rfl rfl (by norm_num)⟩

/-- C20 (amended): when the vertex buffer has shape `[M,3]`, the index buffer
has shape `[N,3]` with `3N ≤ 2147483647`, and every index `e` satisfies
`0 ≤ e < M` and `3e ≤ 2147483647`, `draw_triangle_elements` emits exactly `N`
vertex calls between `begin(TRIANGLES)` and `end`, the `k`-th carrying
`vertices[indices[k][0]]`; an index buffer with the same first index in every
triplet gives the same trace, whatever its second and third indices are. -/
theorem draw_triangle_elements_first_index_only (M N : Nat) (x : PyArray F32)
    (e : PyArray Int) (n c : Option (PyArray F32))
    (hx : HasShape x [M, 3]) (he : HasShape e [N, 3]) (hN : 3 * N ≤ 2147483647)
    (hidx : ∀ i ∈ e.data, 0 ≤ i ∧ i < (M : Int) ∧ 3 * i ≤ 2147483647) :
    ∃ t, draw_triangle_elements x e n c = some t ∧
      t = beginPrim GL_TRIANGLES ::
          (List.range N).map (fun k => vertex (x.row (e.data.getD (3 * k) 0).toNat))
          ++ [endPrim] ∧
      countVertex t = N ∧
      ∀ e' : PyArray Int, HasShape e' [N, 3] →
        (∀ k, k < N → e'.data.getD (3 * k) 0 = e.data.getD (3 * k) 0) →
        draw_triangle_elements x e' n c = some t := by
  have hel3 : e.data.length = 3 * N := by
    have := he.2
    simp at this; omega
  have hfirst : ∀ k, k < N → 0 ≤ e.data.getD (3 * k) 0 ∧ e.data.getD (3 * k) 0 < M ∧
      3 * e.data.getD (3 * k) 0 ≤ 2147483647 := by
    intro k hk
    have hlt : 3 * k < e.data.length := by omega
    have hmem : e.data.getD (3 * k) 0 ∈ e.data := by
      simp [List.getD, List.getElem?_eq_getElem hlt]
    exact hidx _ hmem
  refine ⟨_, elements_trace M N x e n c hx he hN hfirst, ?_, ?_, ?_⟩
  · rw [flatMap_single]
  · exact countP_wrap_one GLCall.isVertex GL_TRIANGLES _ N rfl rfl (fun _ => rfl)
  · intro e' he' hsame
    rw [elements_trace M N x e' n c hx he' hN
      (fun k hk => by rw [hsame k hk]; exact hfirst k hk)]
    congr 3
    apply flatMap_congr_mem
    intro k hk
    rw [hsame k (List.mem_range.1 hk)]

/-- Witness of C20 on the indexed example. -/
theorem draw_triangle_elements_first_index_only_witness :
    HasShape exVertices [4, 3] ∧ HasShape exIndices [2, 3] ∧ 3 * 2 ≤ 2147483647 ∧
    (∀ i ∈ exIndices.data, 0 ≤ i ∧ i < ((4 : Nat) : Int) ∧ 3 * i ≤ 2147483647) ∧
    ∃ t, draw_triangle_elements exVertices exIndices none none = some t ∧
      t = beginPrim GL_TRIANGLES ::
          (List.range 2).map
            (fun k => vertex (exVertices.row (exIndices.data.getD (3 * k) 0).toNat))
          ++ [endPrim] ∧
      countVertex t = 2 ∧
      ∀ e' : PyArray Int, HasShape e' [2, 3] →
        (∀ k, k < 2 → e'.data.getD (3 * k) 0 = exIndices.data.getD (3 * k) 0) →
        draw_triangle_elements exVertices e' none none = some t :=
  ⟨by decide, by decide, by decide, by decide,
    draw_triangle_elements_first_index_only 4 2 exVertices exIndices none none
      (by decide) (by decide) (by decide) (by decide)⟩

end DrawGL
